import Mathlib

/-!
Verification of the incremental ETL engine of the fire-incidents repository.

The Python sources under `etl/` are shallowly embedded as executable Lean
definitions:

* `etl/extract.py`   → `fetchGo`, `fetchFireData`
* `etl/transform.py` → `cleanColumnNames`, `convertDataTypes`,
                       `performDataQualityChecks`, `transformData`
* `etl/utils.py`     → `createStagingTable`, `executeValuesSt`, `upsertData`
* `etl/load.py`      → `loadDataToStaging`
* `etl/main.py`      → `runEtl`

A pandas `DataFrame` is a `DF`: a column-name list plus rows of nullable
string cells (the data arrives from a JSON API; numeric coercions keep the
textual value, which is all the staging layer stores).  Timestamps are
modelled by `DateTime` with `parseIso` following the documented grammar of
`datetime.fromisoformat` (also used as the model of `pandas.to_datetime`
on the ISO-8601 strings this source emits) and `fmtMicro` following
`strftime` with format `%Y-%m-%dT%H:%M:%S.%f`.
-/

/-! ## Strings: Python-style lexicographic comparison (by code point) -/

/-- Strict lexicographic order on char lists, as Python compares strings. -/
def lexLt : List Char → List Char → Bool
  | [], [] => false
  | [], _ :: _ => true
  | _ :: _, [] => false
  | a :: as, b :: bs => if a < b then true else if b < a then false else lexLt as bs

/-- Python `s < t` on strings: lexicographic by code point. -/
def strLt (s t : String) : Bool := lexLt s.data t.data

/-- Non-strict companion of `strLt`. -/
def strLe (s t : String) : Bool := !(strLt t s)

theorem lexLt_irrefl : ∀ l : List Char, lexLt l l = false := by
  intro l
  induction l with
  | nil => rfl
  | cons a as ih => simp [lexLt, ih]

theorem lexLt_asymm : ∀ l m : List Char, lexLt l m = true → lexLt m l = false := by
  intro l
  induction l with
  | nil => intro m h; cases m <;> simp_all [lexLt]
  | cons a as ih =>
    intro m h
    cases m with
    | nil => simp [lexLt] at h
    | cons b bs =>
      simp only [lexLt] at h ⊢
      rcases lt_trichotomy a b with hab | hab | hab
      · simp [hab, not_lt.mpr hab.le, lt_asymm hab]
      · subst hab
        simp only [lt_irrefl, if_false] at h ⊢
        exact ih bs h
      · simp [hab, not_lt.mpr hab.le, lt_asymm hab] at h

theorem lexLt_trichotomy : ∀ l m : List Char, lexLt l m = false → lexLt m l = false → l = m := by
  intro l
  induction l with
  | nil => intro m h _; cases m <;> simp_all [lexLt]
  | cons a as ih =>
    intro m h h'
    cases m with
    | nil => simp [lexLt] at h'
    | cons b bs =>
      simp only [lexLt] at h h'
      rcases lt_trichotomy a b with hab | hab | hab
      · simp [hab] at h
      · subst hab
        simp only [lt_irrefl, if_false] at h h'
        rw [ih bs h h']
      · simp [hab] at h'

theorem lexLt_trans : ∀ l m n : List Char,
    lexLt l m = true → lexLt m n = true → lexLt l n = true := by
  intro l
  induction l with
  | nil =>
    intro m n h h'
    cases m with
    | nil => simp [lexLt] at h
    | cons b bs => cases n with
      | nil => simp [lexLt] at h'
      | cons c cs => simp [lexLt]
  | cons a as ih =>
    intro m n h h'
    cases m with
    | nil => simp [lexLt] at h
    | cons b bs =>
      cases n with
      | nil => simp [lexLt] at h'
      | cons c cs =>
        simp only [lexLt] at h h' ⊢
        rcases lt_trichotomy a b with hab | hab | hab
        · rcases lt_trichotomy b c with hbc | hbc | hbc
          · simp [lt_trans hab hbc]
          · subst hbc; simp [hab]
          · simp [hbc, not_lt.mpr hbc.le, lt_asymm hbc] at h'
        · subst hab
          rcases lt_trichotomy a c with hac | hac | hac
          · simp [hac]
          · subst hac
            simp only [lt_irrefl, if_false] at h h' ⊢
            exact ih bs cs h h'
          · simp [hac, not_lt.mpr hac.le, lt_asymm hac] at h'
        · simp [hab, not_lt.mpr hab.le, lt_asymm hab] at h

theorem strLe_total (s t : String) : strLe s t = true ∨ strLe t s = true := by
  unfold strLe strLt
  by_cases h : lexLt t.data s.data = true
  · right
    rw [Bool.not_eq_true']
    exact lexLt_asymm _ _ h
  · left
    rw [Bool.not_eq_true']
    exact Bool.not_eq_true _ ▸ h

theorem strLe_trans (s t u : String) :
    strLe s t = true → strLe t u = true → strLe s u = true := by
  unfold strLe strLt
  intro h h'
  rw [Bool.not_eq_true'] at h h' ⊢
  by_contra hc
  rw [Bool.not_eq_false] at hc
  by_cases hst : lexLt s.data t.data = true
  · have := lexLt_trans _ _ _ hc hst
    rw [this] at h'
    exact Bool.noConfusion h'
  · have heq := lexLt_trichotomy _ _ (Bool.not_eq_true _ ▸ hst) h
    rw [heq] at hc
    rw [hc] at h'
    exact Bool.noConfusion h'

theorem strLt_asymm {s t : String} (h : strLt s t = true) : strLt t s = false :=
  lexLt_asymm _ _ h

/-! ## Timestamps

`DateTime` models Python `datetime.datetime` values as produced by
`datetime.fromisoformat` / `pandas.to_datetime` on ISO-8601 strings of this
data source.  `dtKey` is an injective-on-valid-values numeric key used for
`max` comparisons (chronological order). -/

structure DateTime where
  year : Nat
  month : Nat
  day : Nat
  hour : Nat
  minute : Nat
  second : Nat
  micro : Nat
deriving DecidableEq, Repr

/-- Chronological comparison key (radices exceed each field's range). -/
def dtKey (d : DateTime) : Nat :=
  (((((d.year * 13 + d.month) * 32 + d.day) * 25 + d.hour) * 61 + d.minute) * 61
      + d.second) * 1000000 + d.micro

def isLeapYear (y : Nat) : Bool := y % 4 = 0 && (y % 100 != 0 || y % 400 = 0)

def daysInMonth (y m : Nat) : Nat :=
  if m = 2 then (if isLeapYear y then 29 else 28)
  else if m = 4 || m = 6 || m = 9 || m = 11 then 30
  else 31

def digitVal (c : Char) : Nat := c.toNat - 48

/-- Parse `DDDD-DD-DD` (checked calendar date) returning the rest. -/
def parseDatePart : List Char → Option (Nat × Nat × Nat × List Char)
  | y1 :: y2 :: y3 :: y4 :: '-' :: m1 :: m2 :: '-' :: d1 :: d2 :: rest =>
    if y1.isDigit && y2.isDigit && y3.isDigit && y4.isDigit && m1.isDigit && m2.isDigit
        && d1.isDigit && d2.isDigit then
      let y := ((digitVal y1 * 10 + digitVal y2) * 10 + digitVal y3) * 10 + digitVal y4
      let m := digitVal m1 * 10 + digitVal m2
      let d := digitVal d1 * 10 + digitVal d2
      if 1 ≤ y && 1 ≤ m && m ≤ 12 && 1 ≤ d && d ≤ daysInMonth y m then
        some (y, m, d, rest)
      else none
    else none
  | _ => none

/-- Fractional seconds: exactly 3 or 6 digits (the `fromisoformat` grammar). -/
def parseFracPart : List Char → Option (Nat × List Char)
  | f1 :: f2 :: f3 :: f4 :: f5 :: f6 :: rest =>
    if f1.isDigit && f2.isDigit && f3.isDigit && f4.isDigit && f5.isDigit && f6.isDigit then
      some (((((digitVal f1 * 10 + digitVal f2) * 10 + digitVal f3) * 10 + digitVal f4) * 10
          + digitVal f5) * 10 + digitVal f6, rest)
    else
      match f1 :: f2 :: f3 :: f4 :: f5 :: f6 :: rest with
      | g1 :: g2 :: g3 :: rest' =>
        if g1.isDigit && g2.isDigit && g3.isDigit then
          some ((digitVal g1 * 100 + digitVal g2 * 10 + digitVal g3) * 1000, rest')
        else none
      | _ => none
  | f1 :: f2 :: f3 :: rest =>
    if f1.isDigit && f2.isDigit && f3.isDigit then
      some ((digitVal f1 * 100 + digitVal f2 * 10 + digitVal f3) * 1000, rest)
    else none
  | _ => none

/-- Time-zone offset `±HH:MM[:SS]` (value discarded: the source data carries
naive timestamps; validity is still checked). -/
def parseOffsetPart : List Char → Bool
  | [] => true
  | s :: h1 :: h2 :: ':' :: m1 :: m2 :: rest =>
    (s = '+' || s = '-') && h1.isDigit && h2.isDigit && m1.isDigit && m2.isDigit
      && digitVal h1 * 10 + digitVal h2 < 24 && digitVal m1 * 10 + digitVal m2 < 60
      && (match rest with
          | [] => true
          | ':' :: s1 :: s2 :: [] =>
            s1.isDigit && s2.isDigit && digitVal s1 * 10 + digitVal s2 < 60
          | _ => false)
  | _ => false

/-- Time `HH[:MM[:SS[.fff[fff]]]]` plus optional offset, consuming the input. -/
def parseTimePart (y m d : Nat) : List Char → Option DateTime
  | h1 :: h2 :: rest =>
    if h1.isDigit && h2.isDigit then
      let h := digitVal h1 * 10 + digitVal h2
      if h < 24 then
        match rest with
        | ':' :: m1 :: m2 :: rest' =>
          if m1.isDigit && m2.isDigit then
            let mi := digitVal m1 * 10 + digitVal m2
            if mi < 60 then
              match rest' with
              | ':' :: s1 :: s2 :: rest'' =>
                if s1.isDigit && s2.isDigit then
                  let s := digitVal s1 * 10 + digitVal s2
                  if s < 60 then
                    match rest'' with
                    | '.' :: fracRest =>
                      match parseFracPart fracRest with
                      | some (us, rest3) =>
                        if parseOffsetPart rest3 then some ⟨y, m, d, h, mi, s, us⟩ else none
                      | none => none
                    | other =>
                      if parseOffsetPart other then some ⟨y, m, d, h, mi, s, 0⟩ else none
                  else none
                else none
              | other =>
                if parseOffsetPart other then some ⟨y, m, d, h, mi, 0, 0⟩ else none
            else none
          else none
        | other =>
          if parseOffsetPart other then some ⟨y, m, d, h, 0, 0, 0⟩ else none
      else none
    else none
  | _ => none

/-- Model of `datetime.fromisoformat`: `YYYY-MM-DD[*HH[:MM[:SS[.fff[fff]]]][±HH:MM[:SS]]]`
(the separator may be any single character). -/
def parseIso (s : String) : Option DateTime :=
  match parseDatePart s.toList with
  | none => none
  | some (y, m, d, rest) =>
    match rest with
    | [] => some ⟨y, m, d, 0, 0, 0, 0⟩
    | _sep :: timeRest => parseTimePart y m d timeRest

/-- Model of `pandas.to_datetime(..., errors="coerce")` on one cell: the data
source emits ISO-8601 strings, so the ISO grammar is the parse model. -/
def parseTimestamp (s : String) : Option DateTime := parseIso s

/-- Exactly `w` zero-padded decimal digits (least significant) of `n`. -/
def padDigits : Nat → Nat → List Char
  | 0, _ => []
  | w + 1, n => padDigits w (n / 10) ++ [Nat.digitChar (n % 10)]

/-- `strftime("%Y-%m-%dT%H:%M:%S.%f")` as a char list. -/
def fmtMicroList (d : DateTime) : List Char :=
  padDigits 4 d.year ++ '-' :: (padDigits 2 d.month ++ '-' :: (padDigits 2 d.day
    ++ 'T' :: (padDigits 2 d.hour ++ ':' :: (padDigits 2 d.minute
    ++ ':' :: (padDigits 2 d.second ++ '.' :: padDigits 6 d.micro)))))

/-- `strftime("%Y-%m-%dT%H:%M:%S.%f")`. -/
def fmtMicro (d : DateTime) : String := String.mk (fmtMicroList d)

/-- `strftime("%Y-%m-%dT%H:%M:%S.%f")[:-3]` (the Socrata watermark format in
`etl/main.py`). -/
def fmtMilli (d : DateTime) : String :=
  String.mk (fmtMicroList d).dropLast.dropLast.dropLast

/-- Checks the exact `%Y-%m-%dT%H:%M:%S.%f` shape (claim C10's format). -/
def isDatetimeFormatted (s : String) : Bool :=
  match s.toList with
  | [y1, y2, y3, y4, c1, m1, m2, c2, d1, d2, c3, h1, h2, c4, mi1, mi2, c5, s1, s2, c6,
      f1, f2, f3, f4, f5, f6] =>
    y1.isDigit && y2.isDigit && y3.isDigit && y4.isDigit && c1 = '-' && m1.isDigit
      && m2.isDigit && c2 = '-' && d1.isDigit && d2.isDigit && c3 = 'T' && h1.isDigit
      && h2.isDigit && c4 = ':' && mi1.isDigit && mi2.isDigit && c5 = ':' && s1.isDigit
      && s2.isDigit && c6 = '.' && f1.isDigit && f2.isDigit && f3.isDigit && f4.isDigit
      && f5.isDigit && f6.isDigit
  | _ => false

theorem digitChar_isDigit {m : Nat} (h : m < 10) : (Nat.digitChar m).isDigit = true := by
  interval_cases m <;> decide

theorem isDatetimeFormatted_fmtMicro (d : DateTime) :
    isDatetimeFormatted (fmtMicro d) = true := by
  have h : ∀ n : Nat, (Nat.digitChar (n % 10)).isDigit = true := fun n =>
    digitChar_isDigit (Nat.mod_lt _ (by omega))
  simp only [fmtMicro, isDatetimeFormatted, fmtMicroList, padDigits, String.toList,
    List.nil_append, List.cons_append, List.append_assoc]
  simp [h]

/-! ## DataFrames

A cell is `Option String` (`none` = pandas missing value).  Rows are aligned
with the column list.  `DF.isEmpty` mirrors `DataFrame.empty` (true when
either axis has length 0). -/

abbrev Row := List (Option String)

structure DF where
  cols : List String
  rows : List Row
deriving DecidableEq, Repr

def DF.isEmpty (df : DF) : Bool := df.rows.isEmpty || df.cols.isEmpty

/-- One JSON record from the API: field name to textual value. -/
abbrev Record := List (String × String)

def addRecordCols (acc : List String) (r : Record) : List String :=
  r.foldl (fun a kv => if a.contains kv.1 then a else a ++ [kv.1]) acc

/-- `pd.DataFrame(list_of_dicts)` columns: union of keys in first-appearance
order. -/
def recordCols (rs : List Record) : List String := rs.foldl addRecordCols []

def lookupField (r : Record) (c : String) : Option String :=
  (r.find? (fun kv => decide (kv.1 = c))).map Prod.snd

/-- `pd.DataFrame(all_data)` in `etl/extract.py`: a missing key becomes a
missing cell. -/
def recordsToDF (rs : List Record) : DF :=
  let cols := recordCols rs
  ⟨cols, rs.map (fun r => cols.map (fun c => lookupField r c))⟩

/-- Index of the first occurrence of a name in a column list. -/
def firstIdx (c : String) : List String → Option Nat
  | [] => none
  | n :: ns => if n = c then some 0 else (firstIdx c ns).map (· + 1)

def colIdx? (df : DF) (c : String) : Option Nat := firstIdx c df.cols

def cellAt (df : DF) (r : Row) (c : String) : Option String :=
  match colIdx? df c with
  | some i => r.getD i none
  | none => none

/-- The values of one column, as `df[c]`. -/
def colValues (df : DF) (c : String) : List (Option String) :=
  match colIdx? df c with
  | some i => df.rows.map (fun r => r.getD i none)
  | none => []

/-- Column assignment `df[c] = f(df[c])`; rows are re-materialised at the
frame's width, as a pandas column assignment yields a full column. -/
def mapCol (df : DF) (c : String) (f : Option String → Option String) : DF :=
  match colIdx? df c with
  | none => df
  | some i =>
    ⟨df.cols, df.rows.map (fun r => (List.range df.cols.length).map (fun j =>
        if j = i then f (r.getD j none) else r.getD j none))⟩

/-! ## Schema Normalizer (`etl/transform.py`) -/

/-- `clean_column_names` per-name transform: lowercase, spaces and hyphens to
underscores, question marks and dots removed. -/
def cleanName (s : String) : String :=
  String.mk (s.data.filterMap (fun c =>
    if c = '?' || c = '.' then none
    else if c = ' ' || c = '-' then some '_'
    else some c.toLower))

/-- The collision-counter renaming loop of `clean_column_names` (first
duplicate becomes `name_1`, the next `name_2`, ...). -/
def renameDupsGo : List (String × Nat) → List String → List String
  | _, [] => []
  | seen, n :: rest =>
    match seen.find? (fun p => decide (p.1 = n)) with
    | some p =>
      (n ++ "_" ++ toString (p.2 + 1))
        :: renameDupsGo (seen.map (fun q => if q.1 = n then (q.1, q.2 + 1) else q)) rest
    | none => n :: renameDupsGo ((n, 0) :: seen) rest

def cleanColumnNames (df : DF) : DF :=
  ⟨renameDupsGo [] (df.cols.map cleanName), df.rows⟩

inductive Dtype where
  | intT | floatT | strT
deriving DecidableEq, Repr

/-- `EXPECTED_DTYPES` of `etl/transform.py` (`Int64`/`Float64`/`string`). -/
def EXPECTED_DTYPES : List (String × Dtype) :=
  [("incident_number", .strT), ("exposure_number", .intT), ("id", .strT),
   ("address", .strT), ("incident_date", .strT), ("call_number", .strT),
   ("alarm_dttm", .strT), ("arrival_dttm", .strT), ("close_dttm", .strT),
   ("city", .strT), ("zipcode", .strT), ("battalion", .strT),
   ("station_area", .strT), ("box", .strT), ("suppression_units", .intT),
   ("suppression_personnel", .intT), ("ems_units", .intT), ("ems_personnel", .intT),
   ("other_units", .intT), ("other_personnel", .intT), ("first_unit_on_scene", .strT),
   ("estimated_property_loss", .floatT), ("estimated_contents_loss", .floatT),
   ("fire_fatalities", .intT), ("fire_injuries", .intT), ("civilian_fatalities", .intT),
   ("civilian_injuries", .intT), ("number_of_alarms", .intT),
   ("primary_situation", .strT), ("mutual_aid", .strT), ("action_taken_primary", .strT),
   ("action_taken_secondary", .strT), ("action_taken_other", .strT),
   ("detector_alerted_occupants", .strT), ("property_use", .strT),
   ("area_of_fire_origin", .strT), ("ignition_cause", .strT),
   ("ignition_factor_primary", .strT), ("ignition_factor_secondary", .strT),
   ("heat_source", .strT), ("item_first_ignited", .strT),
   ("human_factors_associated_with_ignition", .strT), ("structure_type", .strT),
   ("structure_status", .strT), ("floor_of_fire_origin", .intT), ("fire_spread", .strT),
   ("no_flame_spead", .strT), ("number_of_floors_with_minimum_damage", .intT),
   ("number_of_floors_with_significant_damage", .intT),
   ("number_of_floors_with_heavy_damage", .intT),
   ("number_of_floors_with_extreme_damage", .intT), ("detectors_present", .strT),
   ("detector_type", .strT), ("detector_operation", .strT),
   ("detector_effectiveness", .strT), ("detector_failure_reason", .strT),
   ("automatic_extinguishing_system_present", .strT),
   ("automatic_extinguishing_sytem_type", .strT),
   ("automatic_extinguishing_sytem_perfomance", .strT),
   ("automatic_extinguishing_sytem_failure_reason", .strT),
   ("number_of_sprinkler_heads_operating", .intT), ("supervisor_district", .strT),
   ("neighborhood_district", .strT), ("point", .strT), ("data_as_of", .strT),
   ("data_loaded_at", .strT)]

/-- `DATETIME_COLUMNS` of `etl/transform.py`. -/
def DATETIME_COLUMNS : List String :=
  ["incident_date", "alarm_dttm", "arrival_dttm", "close_dttm", "data_as_of"]

def splitDigits : List Char → List Char × List Char
  | [] => ([], [])
  | c :: cs =>
    if c.isDigit then
      let p := splitDigits cs
      (c :: p.1, p.2)
    else ([], c :: cs)

def expOk (l : List Char) : Bool :=
  let l' := match l with
            | '+' :: cs => cs
            | '-' :: cs => cs
            | cs => cs
  let p := splitDigits l'
  decide (0 < p.1.length) && p.2.isEmpty

/-- Acceptance model of `pd.to_numeric` on a textual cell: optional sign,
decimal mantissa with at least one digit, optional exponent. -/
def isNumericString (s : String) : Bool :=
  let l := match s.data with
           | '+' :: cs => cs
           | '-' :: cs => cs
           | cs => cs
  let ip := splitDigits l
  let fp := match ip.2 with
            | '.' :: cs => splitDigits cs
            | r => ([], r)
  (decide (0 < ip.1.length + fp.1.length))
    && (match fp.2 with
        | [] => true
        | 'e' :: cs => expOk cs
        | 'E' :: cs => expOk cs
        | _ => false)

/-- `pd.to_numeric(col, errors="coerce")` cellwise: unparseable values become
missing; a parsed value is kept in its textual form (the staging layer stores
text). -/
def toNumericCell (v : Option String) : Option String :=
  v.bind (fun s => if isNumericString s then some s else none)

/-- The datetime pass of `convert_data_types`:
`pd.to_datetime(col, errors="coerce").dt.strftime("%Y-%m-%dT%H:%M:%S.%f").fillna("")`. -/
def toDatetimeCell (v : Option String) : Option String :=
  some (match v.bind parseTimestamp with
        | some d => fmtMicro d
        | none => "")

def dtypeConv : Dtype → (Option String → Option String)
  | .intT => toNumericCell
  | .floatT => toNumericCell
  | .strT => id

/-- A trailing timezone offset `±HH:MM[:SS]`.  For strings accepted by
`parseIso`, an offset is present exactly when one of these suffixes is. -/
def isOffsetSuffix : List Char → Bool
  | [s, h1, h2, ':', m1, m2] =>
    (s = '+' || s = '-') && h1.isDigit && h2.isDigit && m1.isDigit && m2.isDigit
  | [s, h1, h2, ':', m1, m2, ':', s1, s2] =>
    (s = '+' || s = '-') && h1.isDigit && h2.isDigit && m1.isDigit && m2.isDigit
      && s1.isDigit && s2.isDigit
  | _ => false

/-- The timezone signature of an ISO string: its offset suffix, or `none`
for a tz-naive string. -/
def offsetSuffix (s : String) : Option (List Char) :=
  if isOffsetSuffix (s.data.drop (s.data.length - 9)) then
    some (s.data.drop (s.data.length - 9))
  else if isOffsetSuffix (s.data.drop (s.data.length - 6)) then
    some (s.data.drop (s.data.length - 6))
  else none

/-- Column-wide failure condition of the datetime pass: `pd.to_datetime`
refuses a column (even with `errors="coerce"`) whose parseable values do
not share one timezone signature — mixing tz-aware with tz-naive strings,
or two different offsets. -/
def columnTzMixed (vals : List (Option String)) : Bool :=
  match vals.filterMap (fun v =>
      v.bind (fun s => if (parseIso s).isSome then some (offsetSuffix s) else none)) with
  | [] => false
  | sig :: rest => rest.any (fun x => decide (x ≠ sig))

/-- `convert_data_types` of `etl/transform.py`: the dtype loop over
`EXPECTED_DTYPES`, then the datetime formatting loop over
`DATETIME_COLUMNS`.  A column absent from the frame is skipped (`mapCol`
is the identity there).  Each datetime column's conversion is wrapped in a
`try/except` in the source: when the column-wide `pd.to_datetime` raises
(mixed timezone signatures), the column is left in its original form. -/
def convertDataTypes (df : DF) : DF :=
  let df1 := EXPECTED_DTYPES.foldl (fun acc p => mapCol acc p.1 (dtypeConv p.2)) df
  DATETIME_COLUMNS.foldl (fun acc c =>
    if columnTzMixed (colValues acc c) then acc
    else mapCol acc c toDatetimeCell) df1

/-! ## Data Quality Gate (`perform_data_quality_checks`) -/

def INCREMENTAL_COLUMN : String := "response_timestamp"

def keyCell (df : DF) (r : Row) : Option String := cellAt df r "incident_number"

def tsCell (df : DF) (r : Row) : Option String := cellAt df r INCREMENTAL_COLUMN

/-- Sort key comparison of `sort_values(INCREMENTAL_COLUMN)`: ascending,
missing values last (`na_position="last"`). -/
def tsLeB : Option String → Option String → Bool
  | some x, some y => strLe x y
  | some _, none => true
  | none, some _ => false
  | none, none => true

/-- Strict companion of `tsLeB`: both timestamps present and strictly
ordered. -/
def tsLtB : Option String → Option String → Bool
  | some x, some y => strLt x y
  | _, _ => false

def sortByTs (df : DF) : DF :=
  ⟨df.cols, df.rows.insertionSort (fun r1 r2 => tsLeB (tsCell df r1) (tsCell df r2) = true)⟩

/-- `drop_duplicates(subset, keep="last")`: a row survives iff no later row
has the same key. -/
def keepLast (key : Row → Option String) : List Row → List Row
  | [] => []
  | r :: rs =>
    if rs.any (fun r2 => decide (key r2 = key r)) then keepLast key rs
    else r :: keepLast key rs

/-- `drop_duplicates(subset, keep="first")`: a row survives iff its key was
not seen earlier. -/
def keepFirstGo (key : Row → Option String) (seen : List (Option String)) :
    List Row → List Row
  | [] => []
  | r :: rs =>
    if seen.contains (key r) then keepFirstGo key seen rs
    else r :: keepFirstGo key (key r :: seen) rs

structure Verdicts where
  missingPk : Bool
  hadDuplicates : Bool
deriving DecidableEq, Repr

/-- `df.duplicated(subset=["incident_number"], keep=False).any()`: some key
value occurs at least twice (missing keys compare equal, as in pandas). -/
def hasDupKeys (df : DF) : Bool :=
  df.rows.any (fun r => decide (2 ≤ df.rows.countP (fun r2 => decide (keyCell df r2 = keyCell df r))))

/-- `perform_data_quality_checks` of `etl/transform.py`: missing-key check
(logged verdict, rows kept), then intra-batch duplicate resolution; a frame
without the key column raises `ValueError`. -/
def performDataQualityChecks (df : DF) : Except String (DF × Verdicts) :=
  if df.isEmpty then .ok (df, ⟨false, false⟩)
  else if df.cols.contains "incident_number" then
    let missingPk := df.rows.any (fun r => (keyCell df r).isNone)
    let dups := hasDupKeys df
    let resolved :=
      if dups then
        if df.cols.contains INCREMENTAL_COLUMN then
          ⟨df.cols, keepLast (keyCell df) (sortByTs df).rows⟩
        else
          ⟨df.cols, keepFirstGo (keyCell df) [] df.rows⟩
      else df
    .ok (resolved, ⟨missingPk, dups⟩)
  else .error "Missing critical column incident_number"

/-- `transform_data` of `etl/transform.py`: empty input short-circuits to an
empty frame; otherwise clean names, convert types, run the quality checks
(whose `ValueError` propagates). -/
def transformData (df : DF) : Except String (DF × Verdicts) :=
  if df.isEmpty then .ok (⟨[], []⟩, ⟨false, false⟩)
  else performDataQualityChecks (convertDataTypes (cleanColumnNames df))

/-! ## Warehouse model (`etl/utils.py`, `etl/load.py`)

A PostgreSQL staging table: a column list and rows aligned with it.  `DB` is
`none` when the table does not exist.  `executeValuesSt` models
`psycopg2.extras.execute_values` running the generated
`INSERT ... ON CONFLICT (key) DO UPDATE` statement inside the open
transaction: it returns the working (uncommitted) table state together with
the first error, if any. -/

structure Table where
  cols : List String
  rows : List Row
deriving DecidableEq, Repr

abbrev DB := Option Table

def tableRows (db : DB) : List Row :=
  match db with
  | some t => t.rows
  | none => []

/-- `create_staging_table`: `CREATE TABLE IF NOT EXISTS`, with the minimal
single-column definition when the frame is empty, else `incident_number`
as primary key plus every other frame column as TEXT. -/
def createStagingTable (db : DB) (df : DF) : DB :=
  match db with
  | some t => some t
  | none =>
    if df.isEmpty then some ⟨["incident_number"], []⟩
    else some ⟨"incident_number" :: df.cols.filter (fun c => decide (c ≠ "incident_number")), []⟩

def rowKeyCell (t : Table) (uk : String) (r : Row) : Option String :=
  match firstIdx uk t.cols with
  | some i => r.getD i none
  | none => none

def idxIn (cols : List String) (c : String) : Option Nat := firstIdx c cols

/-- The row a plain INSERT produces: listed columns take the tuple's values,
unlisted columns NULL. -/
def insertRow (tblCols insertCols : List String) (t : Row) : Row :=
  tblCols.map (fun c =>
    match idxIn insertCols c with
    | some i => t.getD i none
    | none => none)

/-- `DO UPDATE SET "c" = EXCLUDED."c"` for every non-key listed column. -/
def updateRow (tblCols insertCols : List String) (uk : String) (t old : Row) : Row :=
  List.zipWith (fun c ov =>
    if c ≠ uk then
      match idxIn insertCols c with
      | some i => t.getD i none
      | none => ov
    else ov) tblCols old

/-- Applies the statement's tuples in order against the working table.
Failure modes of the real statement: arity mismatch between a tuple and the
column list (the C1 hazard), NULL in the primary-key column, and two tuples
of one statement conflicting on the same key (`ON CONFLICT DO UPDATE cannot
affect row a second time`). -/
def executeValuesSt (insertCols : List String) (uk : String) :
    Table → List (Option String) → List Row → Table × Option String
  | tbl, _, [] => (tbl, none)
  | tbl, touched, t :: ts =>
    if t.length ≠ insertCols.length then
      (tbl, some "INSERT value list does not match target columns")
    else
      let kv := match idxIn insertCols uk with
                | some i => t.getD i none
                | none => none
      match kv with
      | none => (tbl, some "null value in primary key column")
      | some k =>
        if touched.contains (some k) then
          (tbl, some "ON CONFLICT DO UPDATE cannot affect row a second time")
        else
          let tbl' :=
            if tbl.rows.any (fun r => decide (rowKeyCell tbl uk r = some k)) then
              ⟨tbl.cols, tbl.rows.map (fun r =>
                if rowKeyCell tbl uk r = some k then updateRow tbl.cols insertCols uk t r
                else r)⟩
            else
              ⟨tbl.cols, tbl.rows ++ [insertRow tbl.cols insertCols t]⟩
          executeValuesSt insertCols uk tbl' (some k :: touched) ts

/-- The columns `upsert_data` drops (logged with a warning). -/
def droppedCols (dfCols dbCols : List String) : List String :=
  dfCols.filter (fun c => decide (c ∉ dbCols))

/-- `upsert_data` of `etl/utils.py`.  The column list of the generated SQL is
the frame–table intersection, but the value tuples are built from the
*unfiltered* frame (`df.to_numpy()` on `df`, not `df_filtered`).  On any
error the transaction is rolled back (working state discarded) and the
exception re-raised; otherwise the working state is committed. -/
def upsertData (db : DB) (df : DF) (uk : String) : DB × Except String Unit :=
  if df.isEmpty then (db, .ok ())
  else
    let dbCols := match db with
                  | some t => t.cols
                  | none => df.cols
    let colsToUpsert := df.cols.filter (fun c => decide (c ∈ dbCols))
    let tuples := df.rows
    match db with
    | none => (none, .error "relation does not exist")
    | some tbl =>
      match executeValuesSt colsToUpsert uk tbl [] tuples with
      | (committed, none) => (some committed, .ok ())
      | (_, some e) => (some tbl, .error e)

/-- `load_data_to_staging` of `etl/load.py`: empty frames skip every database
operation; a frame without the unique key raises; otherwise ensure the table
exists, then upsert (exceptions re-raised). -/
def loadDataToStaging (db : DB) (df : DF) : DB × Except String Unit :=
  if df.isEmpty then (db, .ok ())
  else if df.cols.contains "incident_number" then
    let db1 := createStagingTable db df
    upsertData db1 df "incident_number"
  else (db, .error "Unique key column missing from DataFrame")

/-! ## Paginated Extractor (`etl/extract.py`)

`api filt offset` is the environment: the record page the source returns for
a request carrying the optional incremental `$where` filter and the given
`$offset` (network failures are not modelled; `fetchFireData` fails only on
the malformed-watermark path).  The fuel argument equals
`max_iterations - iteration_count`; the hard-coded cap is 10. -/

structure GoOut where
  records : List Record
  requests : Nat
  dataPages : Nat
  capWarning : Bool
deriving DecidableEq, Repr

def fetchGo (api : Nat → List Record) (limit : Nat) : Nat → Nat → GoOut
  | _, 0 => ⟨[], 0, 0, true⟩
  | offset, fuel + 1 =>
    let batch := api offset
    if batch.isEmpty then ⟨[], 1, 0, false⟩
    else if batch.length < limit then ⟨batch, 1, 1, false⟩
    else if fuel = 0 then ⟨batch, 1, 1, true⟩
    else
      let rest := fetchGo api limit (offset + limit) fuel
      ⟨batch ++ rest.records, rest.requests + 1, rest.dataPages + 1, rest.capWarning⟩

structure FetchOut where
  result : Option (List Record)
  requests : Nat
  dataPages : Nat
  capWarning : Bool
deriving DecidableEq, Repr

def runFetchLoop (api : Option String → Nat → List Record) (filt : Option String)
    (limit : Nat) : FetchOut :=
  let g := fetchGo (api filt) limit 0 10
  ⟨some g.records, g.requests, g.dataPages, g.capWarning⟩

/-- `fetch_fire_data`: an absent (or empty, hence falsy) watermark performs a
full load; a present watermark is validated with `datetime.fromisoformat`
and on failure the function returns `None` before any request is issued;
otherwise the `$where` filter is attached and the paginated loop runs. -/
def fetchFireData (lastRun : Option String)
    (api : Option String → Nat → List Record) (limit : Nat) : FetchOut :=
  match lastRun with
  | none => runFetchLoop api none limit
  | some w =>
    if w = "" then runFetchLoop api none limit
    else
      match parseIso w with
      | some _ => runFetchLoop api (some w) limit
      | none => ⟨none, 0, 0, false⟩

/-! ## Orchestrator (`etl/main.py`) -/

def maxDt (d : DateTime) (ds : List DateTime) : DateTime :=
  ds.foldl (fun acc x => if dtKey acc < dtKey x then x else acc) d

/-- The latest-timestamp computation of `run_etl`:
`pd.to_datetime(raw[INCREMENTAL_COLUMN], errors="coerce")`, then — unless all
values are missing — `timestamps.max().strftime("%Y-%m-%dT%H:%M:%S.%f")[:-3]`.
Also returns the parsed series (for stating properties). -/
def computeLatest (raw : DF) : Option String × List DateTime :=
  if raw.cols.contains INCREMENTAL_COLUMN then
    let parsed := (colValues raw INCREMENTAL_COLUMN).filterMap (fun v => v.bind parseTimestamp)
    match parsed with
    | [] => (none, [])
    | d :: ds => (some (fmtMilli (maxDt d ds)), d :: ds)
  else (none, [])

/-- The state-file write guard of `run_etl`:
`if latest_processed_timestamp and last_run_ts != latest_processed_timestamp`. -/
def savesOf (lastRun latest : Option String) : List String :=
  match latest with
  | some s => if lastRun = some s then [] else [s]
  | none => []

structure RunResult where
  exitCode : Nat
  db : DB
  saves : List String
  loadCalled : Bool
  verdictFail : Bool
  latest : Option String
  requests : Nat
  parsedTs : List DateTime
deriving DecidableEq, Repr

/-- `run_etl` after a successful fetch of `raw`: the no-data exit, the
latest-timestamp computation, transform (exceptions exit 1), the
empty-after-transform exit (state maybe updated), load (failure exits 1
without saving), and the post-load state update. -/
def runPhase2 (lastRun : Option String) (db : DB) (requests : Nat) (raw : DF) : RunResult :=
  if raw.isEmpty then ⟨0, db, [], false, false, none, requests, []⟩
  else
    let lp := computeLatest raw
    match transformData raw with
    | .error _ => ⟨1, db, [], false, false, lp.1, requests, lp.2⟩
    | .ok (tdf, v) =>
      if tdf.isEmpty then
        ⟨0, db, savesOf lastRun lp.1, false, v.missingPk, lp.1, requests, lp.2⟩
      else
        match loadDataToStaging db tdf with
        | (db', .error _) => ⟨1, db', [], true, v.missingPk, lp.1, requests, lp.2⟩
        | (db', .ok _) => ⟨0, db', savesOf lastRun lp.1, true, v.missingPk, lp.1, requests, lp.2⟩

/-- `run_etl` of `etl/main.py` as a function of the initial watermark, the
source behaviour, the batch size and the initial warehouse state. -/
def runEtl (lastRun : Option String) (api : Option String → Nat → List Record)
    (limit : Nat) (db : DB) : RunResult :=
  let f := fetchFireData lastRun api limit
  match f.result with
  | none => ⟨1, db, [], false, false, none, f.requests, []⟩
  | some recs => runPhase2 lastRun db f.requests (recordsToDF recs)

/-! ## Claim theorems -/

/-- C1: the claim fails on the code.  For a non-empty batch whose column set
includes a column absent from the target table (here `city`), `upsert_data`
computes the dropped columns for its warning, but the value tuples are built
from the unfiltered frame (`df.to_numpy()` instead of `df_filtered`), so the
generated merge statement has more expressions than target columns and the
bulk merge fails instead of writing the intersection columns — contradicting
the function's own log message that the columns "will be ignored during
upsert". -/
theorem upsert_extra_column_fails :
    droppedCols ["incident_number", "city"] ["incident_number"] = ["city"] ∧
    upsertData (some ⟨["incident_number"], [[some "0"]]⟩)
        ⟨["incident_number", "city"], [[some "1", some "SF"]]⟩ "incident_number"
      = (some ⟨["incident_number"], [[some "0"]]⟩,
         .error "INSERT value list does not match target columns") :=
  ⟨rfl, rfl⟩

/-- C8 counterexample: with no existing table and an empty incoming batch,
`load_data_to_staging` returns before any database operation, so no target
relation is created — the minimal single-column table the claim promises
does not appear. -/
theorem empty_batch_creates_no_table :
    loadDataToStaging none ⟨[], []⟩ = (none, .ok ()) ∧
    (loadDataToStaging none ⟨[], []⟩).1 ≠ some ⟨["incident_number"], []⟩ :=
  ⟨rfl, by decide⟩

/-- C8 amended: on an empty batch the load step performs no database
operation at all (the warehouse state is returned unchanged and the call
succeeds); the table-creation helper itself, had it been invoked with an
empty frame and no existing table, would create the minimal single-column
`incident_number` table — but the load step returns before invoking it. -/
theorem empty_batch_load_skips (db : DB) (df : DF) (h : df.isEmpty = true) :
    loadDataToStaging db df = (db, .ok ()) ∧
    createStagingTable none df = some ⟨["incident_number"], []⟩ := by
  unfold loadDataToStaging createStagingTable
  simp [h]

theorem empty_batch_load_skips_witness :
    loadDataToStaging (some ⟨["x"], []⟩) ⟨["c"], []⟩ = (some ⟨["x"], []⟩, .ok ()) ∧
    createStagingTable none ⟨["c"], []⟩ = some ⟨["incident_number"], []⟩ :=
  empty_batch_load_skips (some ⟨["x"], []⟩) ⟨["c"], []⟩ rfl

/-- C6: a present, non-empty watermark that fails `datetime.fromisoformat`
makes the extractor return the failure value before issuing any request
(zero requests, no pages), and the run then exits with code 1, never calling
the loader, never writing the watermark, and leaving the warehouse
untouched. -/
theorem invalid_watermark_aborts (w : String)
    (api : Option String → Nat → List Record) (limit : Nat) (db : DB)
    (hw : w ≠ "") (hp : parseIso w = none) :
    fetchFireData (some w) api limit = ⟨none, 0, 0, false⟩ ∧
    runEtl (some w) api limit db = ⟨1, db, [], false, false, none, 0, []⟩ := by
  have hf : fetchFireData (some w) api limit = ⟨none, 0, 0, false⟩ := by
    unfold fetchFireData
    simp [hw, hp]
  refine ⟨hf, ?_⟩
  unfold runEtl
  rw [hf]

theorem invalid_watermark_aborts_witness :
    fetchFireData (some "not-a-timestamp") (fun _ _ => []) 2000 = ⟨none, 0, 0, false⟩ ∧
    runEtl (some "not-a-timestamp") (fun _ _ => []) 2000 none
      = ⟨1, none, [], false, false, none, 0, []⟩ :=
  invalid_watermark_aborts "not-a-timestamp" (fun _ _ => []) 2000 none
    (by decide) (by decide)

theorem fetchGo_requests_le (api : Nat → List Record) (limit : Nat) :
    ∀ fuel offset, (fetchGo api limit offset fuel).requests ≤ fuel := by
  intro fuel
  induction fuel with
  | zero => intro offset; simp [fetchGo]
  | succ n ih =>
    intro offset
    simp only [fetchGo]
    split
    · dsimp only
      omega
    · split
      · dsimp only
        omega
      · split
        · dsimp only
          omega
        · dsimp only
          have := ih (offset + limit)
          omega

theorem fetchGo_records_le (api : Nat → List Record) (limit : Nat)
    (hpage : ∀ off, (api off).length ≤ limit) :
    ∀ fuel offset, (fetchGo api limit offset fuel).records.length ≤ fuel * limit := by
  intro fuel
  induction fuel with
  | zero => intro offset; simp [fetchGo]
  | succ n ih =>
    intro offset
    have hb := hpage offset
    have hmul : limit ≤ (n + 1) * limit := Nat.le_mul_of_pos_left limit (by omega)
    simp only [fetchGo]
    split
    · simp
    · split
      · dsimp only
        omega
      · split
        · dsimp only
          omega
        · dsimp only
          have h1 := ih (offset + limit)
          rw [List.length_append]
          have : (n + 1) * limit = limit + n * limit := by ring
          omega

/-- C9: the page cap of `fetch_fire_data` is the hard-coded constant 10
(`max_iterations = 10`), independent of the watermark and of the configured
batch size: every run issues at most 10 requests (so the loop terminates
within 10 iterations even on a source that keeps returning full pages), and
whenever the source honours the requested `$limit`, the returned batch holds
at most `10 * limit` records. -/
theorem page_cap_is_ten (w : Option String)
    (api : Option String → Nat → List Record) (limit : Nat) :
    (fetchFireData w api limit).requests ≤ 10 ∧
    ((∀ filt off, (api filt off).length ≤ limit) →
      ∀ rs, (fetchFireData w api limit).result = some rs → rs.length ≤ 10 * limit) := by
  have main : ∀ filt, (runFetchLoop api filt limit).requests ≤ 10 ∧
      ((∀ filt' off, (api filt' off).length ≤ limit) →
        ∀ rs, (runFetchLoop api filt limit).result = some rs → rs.length ≤ 10 * limit) := by
    intro filt
    constructor
    · exact fetchGo_requests_le (api filt) limit 10 0
    · intro hpage rs hrs
      have : rs = (fetchGo (api filt) limit 0 10).records := by
        simpa [runFetchLoop] using hrs.symm
      rw [this]
      simpa [Nat.mul_comm] using fetchGo_records_le (api filt) limit (hpage filt) 10 0
  unfold fetchFireData
  match w with
  | none => exact main none
  | some s =>
    by_cases hs : s = ""
    · simp only [hs, if_pos rfl]
      exact main none
    · simp only [if_neg hs]
      cases hp : parseIso s with
      | some d => exact main (some s)
      | none =>
        dsimp only
        refine ⟨by omega, ?_⟩
        intro _ rs hrs
        simp at hrs

theorem page_cap_is_ten_witness :
    (fetchFireData none (fun _ _ => [[("a", "b")]]) 1).requests ≤ 10 ∧
    ∀ rs, (fetchFireData none (fun _ _ => [[("a", "b")]]) 1).result = some rs →
      rs.length ≤ 10 * 1 :=
  ⟨(page_cap_is_ten none (fun _ _ => [[("a", "b")]]) 1).1,
   (page_cap_is_ten none (fun _ _ => [[("a", "b")]]) 1).2 (fun _ _ => by simp)⟩

/-- Offset pagination over a fixed source: the page at `off` is
`src[off : off+limit]`, which is how the Socrata endpoint serves `$offset`
and `$limit`. -/
def sliceApi (src : List Record) (limit : Nat) : Nat → List Record :=
  fun off => (src.drop off).take limit

theorem fetchGo_slice_records (src : List Record) (limit : Nat) (hl : 0 < limit) :
    ∀ fuel offset,
      (fetchGo (sliceApi src limit) limit offset fuel).capWarning = false →
      (fetchGo (sliceApi src limit) limit offset fuel).records = src.drop offset := by
  intro fuel
  induction fuel with
  | zero =>
    intro offset h
    simp [fetchGo] at h
  | succ n ih =>
    intro offset
    simp only [fetchGo, sliceApi]
    by_cases h1 : ((src.drop offset).take limit).isEmpty
    · rw [if_pos h1]
      dsimp only
      intro _
      have h1' : (src.drop offset).take limit = [] := by
        simpa using h1
      rcases List.take_eq_nil_iff.mp h1' with h | h
      · omega
      · rw [h]
    · rw [if_neg h1]
      by_cases h2 : ((src.drop offset).take limit).length < limit
      · rw [if_pos h2]
        dsimp only
        intro _
        have hlen : (src.drop offset).length < limit := by
          rw [List.length_take] at h2
          omega
        exact List.take_of_length_le (le_of_lt hlen)
      · rw [if_neg h2]
        by_cases h3 : n = 0
        · rw [if_pos h3]
          dsimp only
          intro hw
          simp at hw
        · rw [if_neg h3]
          dsimp only
          intro hw
          have ih' := ih (offset + limit) (by simpa [sliceApi] using hw)
          simp only [sliceApi] at ih'
          rw [ih', ← List.drop_drop]
          exact List.take_append_drop limit (src.drop offset)

theorem fetchGo_slice_pages (src : List Record) (limit : Nat) (hl : 0 < limit) :
    ∀ fuel offset,
      (fetchGo (sliceApi src limit) limit offset fuel).dataPages
        ≤ min ((src.length - offset + limit - 1) / limit) fuel := by
  intro fuel
  induction fuel with
  | zero =>
    intro offset
    simp [fetchGo]
  | succ n ih =>
    intro offset
    have hceil1 : 0 < (src.drop offset).length →
        1 ≤ (src.length - offset + limit - 1) / limit := by
      intro hpos
      rw [List.length_drop] at hpos
      rw [Nat.le_div_iff_mul_le hl]
      omega
    simp only [fetchGo, sliceApi]
    by_cases h1 : ((src.drop offset).take limit).isEmpty
    · rw [if_pos h1]
      dsimp only
      exact le_min (Nat.zero_le _) (Nat.zero_le _)
    · have hne : (src.drop offset).take limit ≠ [] := by
        simpa using h1
      have hpos : 0 < (src.drop offset).length := by
        by_contra hc
        push_neg at hc
        have : (src.drop offset) = [] := List.length_eq_zero.mp (by omega)
        exact hne (by rw [this, List.take_nil])
      rw [if_neg h1]
      by_cases h2 : ((src.drop offset).take limit).length < limit
      · rw [if_pos h2]
        dsimp only
        exact le_min (hceil1 hpos) (by omega)
      · have hfull : limit ≤ src.length - offset := by
          rw [List.length_take, List.length_drop] at h2
          omega
        by_cases h3 : n = 0
        · rw [if_neg h2, if_pos h3, h3]
          dsimp only
          exact le_min (hceil1 hpos) (by omega)
        · rw [if_neg h2, if_neg h3]
          dsimp only
          have ihn := ih (offset + limit)
          have hnum : src.length - (offset + limit) + limit - 1 = src.length - offset - 1 := by
            omega
          have hstep : (src.length - (offset + limit) + limit - 1) / limit + 1
              = (src.length - offset + limit - 1) / limit := by
            rw [hnum]
            rw [← Nat.add_div_right _ hl]
            congr 1
            omega
          refine le_min ?_ ?_
          · have := min_le_left ((src.length - (offset + limit) + limit - 1) / limit) n
            omega
          · have := min_le_right ((src.length - (offset + limit) + limit - 1) / limit) n
            omega

/-- C7: for batch size `B > 0` and a source holding `T` records served by
offset pagination, the extractor retrieves at most `min (ceil(T/B), 10)`
pages of data, stopping at the first empty page, the first short page or the
cap; and whenever the cap warning is not raised the returned batch is
exactly the source list — every record once, in source order, none dropped. -/
theorem pagination_extraction (src : List Record) (B : Nat) (hB : 0 < B) :
    (fetchFireData none (fun _ => sliceApi src B) B).dataPages
        ≤ min ((src.length + B - 1) / B) 10 ∧
    ((fetchFireData none (fun _ => sliceApi src B) B).capWarning = false →
      (fetchFireData none (fun _ => sliceApi src B) B).result = some src) := by
  have h1 := fetchGo_slice_pages src B hB 10 0
  have h2 := fetchGo_slice_records src B hB 10
  unfold fetchFireData runFetchLoop
  dsimp only
  constructor
  · simpa using h1
  · intro hw
    rw [h2 0 hw]
    simp

/-- Five records served in pages of 2/2/1 at limit 2, the claim's
2000/2000/450 scenario at manageable scale. -/
def srcFive : List Record :=
  [[("incident_number", "0")], [("incident_number", "1")], [("incident_number", "2")],
   [("incident_number", "3")], [("incident_number", "4")]]

theorem pagination_extraction_witness :
    (fetchFireData none (fun _ => sliceApi srcFive 2) 2).dataPages ≤ 3 ∧
    (fetchFireData none (fun _ => sliceApi srcFive 2) 2).result = some srcFive ∧
    (fetchFireData none (fun _ => sliceApi srcFive 2) 2).capWarning = false :=
  ⟨le_trans (pagination_extraction srcFive 2 (by decide)).1 (by decide),
   (pagination_extraction srcFive 2 (by decide)).2 (by decide), by decide⟩

theorem tableRows_createStagingTable (db : DB) (df : DF) :
    tableRows (createStagingTable db df) = tableRows db := by
  cases db with
  | some t => rfl
  | none =>
    unfold createStagingTable
    by_cases he : df.isEmpty = true
    · simp [he, tableRows]
    · simp [he, tableRows]

theorem upsertData_error_unchanged (db : DB) (df : DF) (uk : String) (e : String)
    (h : (upsertData db df uk).2 = .error e) : (upsertData db df uk).1 = db := by
  unfold upsertData at h ⊢
  by_cases he : df.isEmpty = true
  · simp [he] at h
  · rw [if_neg he] at h ⊢
    cases db with
    | none => rfl
    | some tbl =>
      dsimp only at h ⊢
      rcases hex : executeValuesSt (df.cols.filter fun c => decide (c ∈ tbl.cols))
          uk tbl [] df.rows with ⟨t', err⟩
      rw [hex] at h
      cases err with
      | none => simp at h
      | some e' => rfl

theorem upsertData_ok_full (db : DB) (df : DF) (uk : String)
    (h : (upsertData db df uk).2 = .ok ()) :
    df.isEmpty = true ∧ (upsertData db df uk).1 = db ∨
      ∃ tbl t', db = some tbl ∧ (upsertData db df uk).1 = some t' ∧
        executeValuesSt (df.cols.filter (fun c => decide (c ∈ tbl.cols))) uk tbl [] df.rows
          = (t', none) := by
  unfold upsertData at h ⊢
  by_cases he : df.isEmpty = true
  · left
    simp [he]
  · right
    rw [if_neg he] at h ⊢
    cases db with
    | none => simp at h
    | some tbl =>
      dsimp only at h ⊢
      rcases hex : executeValuesSt (df.cols.filter fun c => decide (c ∈ tbl.cols))
          uk tbl [] df.rows with ⟨t', err⟩
      rw [hex] at h
      cases err with
      | none => exact ⟨tbl, t', rfl, rfl, hex⟩
      | some e' => simp at h

theorem load_error_preserves_rows (db : DB) (df : DF) (e : String)
    (h : (loadDataToStaging db df).2 = .error e) :
    tableRows (loadDataToStaging db df).1 = tableRows db := by
  unfold loadDataToStaging at h ⊢
  by_cases he : df.isEmpty = true
  · simp [he] at h
  · by_cases hkey : df.cols.contains "incident_number" = true
    · rw [if_neg he, if_pos hkey] at h ⊢
      rw [upsertData_error_unchanged (createStagingTable db df) df "incident_number" e h]
      exact tableRows_createStagingTable db df
    · rw [if_neg he, if_neg hkey] at h ⊢

/-- C4: the bulk upsert is atomic at batch granularity.  An error anywhere in
the merge leaves the table exactly as it was before the call (the working,
partly-updated state is discarded by the rollback); a successful call means
the whole tuple list went through the single statement; a load failure never
changes the stored rows; and the loader hands the upsert's own error value
unchanged to the orchestrator. -/
theorem upsert_atomic_rollback (db : DB) (df : DF) (uk : String) :
    (∀ e, (upsertData db df uk).2 = .error e → (upsertData db df uk).1 = db) ∧
    ((upsertData db df uk).2 = .ok () →
      df.isEmpty = true ∧ (upsertData db df uk).1 = db ∨
      ∃ tbl t', db = some tbl ∧ (upsertData db df uk).1 = some t' ∧
        executeValuesSt (df.cols.filter (fun c => decide (c ∈ tbl.cols))) uk tbl [] df.rows
          = (t', none)) ∧
    (∀ e, (loadDataToStaging db df).2 = .error e →
      tableRows (loadDataToStaging db df).1 = tableRows db) ∧
    (df.isEmpty = false → df.cols.contains "incident_number" = true →
      (loadDataToStaging db df).2
        = (upsertData (createStagingTable db df) df "incident_number").2) :=
  ⟨fun e h => upsertData_error_unchanged db df uk e h,
   upsertData_ok_full db df uk,
   fun e h => load_error_preserves_rows db df e h,
   fun hne hkey => by
     unfold loadDataToStaging
     rw [if_neg (by simp [hne]), if_pos hkey]⟩

theorem upsert_atomic_rollback_witness :
    (upsertData (some ⟨["incident_number"], []⟩)
        ⟨["incident_number"], [[some "1"], [some "1"]]⟩ "incident_number").1
      = some ⟨["incident_number"], []⟩ ∧
    tableRows (loadDataToStaging (some ⟨["incident_number"], []⟩)
        ⟨["incident_number"], [[some "1"], [some "1"]]⟩).1
      = tableRows (some ⟨["incident_number"], []⟩) :=
  ⟨(upsert_atomic_rollback (some ⟨["incident_number"], []⟩)
      ⟨["incident_number"], [[some "1"], [some "1"]]⟩ "incident_number").1
      "ON CONFLICT DO UPDATE cannot affect row a second time" rfl,
   (upsert_atomic_rollback (some ⟨["incident_number"], []⟩)
      ⟨["incident_number"], [[some "1"], [some "1"]]⟩ "incident_number").2.2.1
      "ON CONFLICT DO UPDATE cannot affect row a second time" rfl⟩

theorem firstIdx_lt {c : String} : ∀ {l : List String} {i : Nat},
    firstIdx c l = some i → i < l.length := by
  intro l
  induction l with
  | nil => intro i h; simp [firstIdx] at h
  | cons n ns ih =>
    intro i h
    unfold firstIdx at h
    by_cases hn : n = c
    · rw [if_pos hn] at h
      cases h
      simp
    · rw [if_neg hn] at h
      cases hj : firstIdx c ns with
      | none => rw [hj] at h; simp at h
      | some j =>
        rw [hj] at h
        simp only [Option.map_some'] at h
        cases h
        have := ih hj
        simp
        omega

theorem firstIdx_getElem? {c : String} : ∀ {l : List String} {i : Nat},
    firstIdx c l = some i → l[i]? = some c := by
  intro l
  induction l with
  | nil => intro i h; simp [firstIdx] at h
  | cons n ns ih =>
    intro i h
    unfold firstIdx at h
    by_cases hn : n = c
    · rw [if_pos hn] at h
      cases h
      simp [hn]
    · rw [if_neg hn] at h
      cases hj : firstIdx c ns with
      | none => rw [hj] at h; simp at h
      | some j =>
        rw [hj] at h
        simp only [Option.map_some'] at h
        cases h
        simpa using ih hj

theorem firstIdx_ne {c c' : String} {l : List String} {i j : Nat} (hne : c ≠ c')
    (h : firstIdx c l = some i) (h' : firstIdx c' l = some j) : i ≠ j := by
  intro hij
  subst hij
  have h1 := firstIdx_getElem? h
  have h2 := firstIdx_getElem? h'
  rw [h1] at h2
  exact hne (Option.some_injective _ h2)

theorem getD_range_map {α : Type} (n : Nat) (g : Nat → α) (i : Nat) (d : α) :
    ((List.range n).map g).getD i d = if i < n then g i else d := by
  rw [List.getD_eq_getElem?_getD, List.getElem?_map]
  by_cases h : i < n
  · rw [List.getElem?_range h]
    simp [h]
  · rw [List.getElem?_eq_none (by simpa [List.length_range] using Nat.le_of_not_lt h)]
    simp [h]

theorem mapCol_cols (df : DF) (c : String) (f : Option String → Option String) :
    (mapCol df c f).cols = df.cols := by
  unfold mapCol
  cases colIdx? df c <;> rfl

theorem colValues_mapCol_self (df : DF) (c : String) (f : Option String → Option String)
    (i : Nat) (h : colIdx? df c = some i) :
    colValues (mapCol df c f) c = (colValues df c).map f := by
  have hi : i < df.cols.length := firstIdx_lt h
  have hm : mapCol df c f = ⟨df.cols, df.rows.map (fun r =>
      (List.range df.cols.length).map (fun j =>
        if j = i then f (r.getD j none) else r.getD j none))⟩ := by
    unfold mapCol
    rw [h]
  rw [hm]
  unfold colValues
  have hidx : colIdx? (⟨df.cols, df.rows.map (fun r =>
      (List.range df.cols.length).map (fun j =>
        if j = i then f (r.getD j none) else r.getD j none))⟩ : DF) c = some i := h
  rw [hidx, h]
  dsimp only
  rw [List.map_map, List.map_map]
  apply List.map_congr_left
  intro r _
  simp only [Function.comp_apply]
  rw [getD_range_map]
  simp [hi]

theorem colValues_mapCol_other (df : DF) (c c' : String)
    (f : Option String → Option String) (hne : c ≠ c') :
    colValues (mapCol df c' f) c = colValues df c := by
  cases h' : colIdx? df c' with
  | none =>
    have : mapCol df c' f = df := by
      unfold mapCol
      rw [h']
    rw [this]
  | some j =>
    have hm : mapCol df c' f = ⟨df.cols, df.rows.map (fun r =>
        (List.range df.cols.length).map (fun k =>
          if k = j then f (r.getD k none) else r.getD k none))⟩ := by
      unfold mapCol
      rw [h']
    rw [hm]
    unfold colValues
    cases h : colIdx? df c with
    | none =>
      have hidx : colIdx? (⟨df.cols, df.rows.map (fun r =>
          (List.range df.cols.length).map (fun k =>
            if k = j then f (r.getD k none) else r.getD k none))⟩ : DF) c = none := h
      rw [hidx]
    | some i =>
      have hidx : colIdx? (⟨df.cols, df.rows.map (fun r =>
          (List.range df.cols.length).map (fun k =>
            if k = j then f (r.getD k none) else r.getD k none))⟩ : DF) c = some i := h
      rw [hidx]
      dsimp only
      have hi : i < df.cols.length := firstIdx_lt h
      have hij : i ≠ j := firstIdx_ne hne h h'
      rw [List.map_map]
      apply List.map_congr_left
      intro r _
      simp only [Function.comp_apply]
      rw [getD_range_map]
      simp [hi, hij]

/-- The shape claim C10 asserts of a cell after the datetime pass. -/
def dtShaped (v : Option String) : Prop :=
  ∃ s, v = some s ∧ (isDatetimeFormatted s = true ∨ s = "")

theorem toDatetimeCell_shaped (v : Option String) : dtShaped (toDatetimeCell v) := by
  unfold toDatetimeCell dtShaped
  cases v.bind parseTimestamp with
  | some d => exact ⟨fmtMicro d, rfl, Or.inl (isDatetimeFormatted_fmtMicro d)⟩
  | none => exact ⟨"", rfl, Or.inr rfl⟩

theorem foldDatetime_ne (c : String) :
    ∀ (L : List String), c ∉ L → ∀ d : DF,
      colValues (L.foldl (fun acc c' =>
        if columnTzMixed (colValues acc c') then acc
        else mapCol acc c' toDatetimeCell) d) c = colValues d c := by
  intro L
  induction L with
  | nil => intro _ d; rfl
  | cons x L ih =>
    intro hmem d
    simp only [List.foldl_cons]
    have hcx : c ≠ x := fun hcx => hmem (hcx ▸ List.mem_cons_self x L)
    rw [ih (fun hmem' => hmem (List.mem_cons_of_mem _ hmem'))]
    by_cases h : columnTzMixed (colValues d x) = true
    · rw [if_pos h]
    · rw [if_neg h, colValues_mapCol_other d c x _ hcx]

theorem foldDatetime_hit (c : String) :
    ∀ (L : List String), c ∈ L → ∀ d : DF,
      (∀ v ∈ colValues (L.foldl (fun acc c' =>
          if columnTzMixed (colValues acc c') then acc
          else mapCol acc c' toDatetimeCell) d) c, dtShaped v)
      ∨ columnTzMixed (colValues (L.foldl (fun acc c' =>
          if columnTzMixed (colValues acc c') then acc
          else mapCol acc c' toDatetimeCell) d) c) = true := by
  intro L
  induction L with
  | nil => intro h; simp at h
  | cons x L ih =>
    intro hmem d
    simp only [List.foldl_cons]
    by_cases hL : c ∈ L
    · exact ih hL _
    · have hcx : c = x := by
        rcases List.mem_cons.mp hmem with h | h
        · exact h
        · exact absurd h hL
      subst hcx
      rw [foldDatetime_ne c L hL]
      by_cases hmix : columnTzMixed (colValues d c) = true
      · rw [if_pos hmix]
        exact Or.inr hmix
      · rw [if_neg hmix]
        left
        cases hidx : colIdx? d c with
        | none =>
          have hm : mapCol d c toDatetimeCell = d := by
            unfold mapCol
            rw [hidx]
          rw [hm]
          unfold colValues
          rw [hidx]
          intro v hv
          simp at hv
        | some i =>
          rw [colValues_mapCol_self d c _ i hidx]
          intro v hv
          rcases List.mem_map.mp hv with ⟨u, _, rfl⟩
          exact toDatetimeCell_shaped u

/-- C10 (amended): after `convert_data_types`, every cell of a designated
datetime column present in the frame is a non-missing string that is either
in the exact `%Y-%m-%dT%H:%M:%S.%f` format or empty — UNLESS the column's
parseable values mix timezone signatures (tz-aware with tz-naive, or two
different offsets): then the column-wide `pd.to_datetime` raises, the
`except` branch of `convert_data_types` leaves the column in its original
form, and unformatted non-empty strings reach the load interface. -/
theorem datetime_columns_formatted (df : DF) (c : String) (hc : c ∈ DATETIME_COLUMNS) :
    (∀ v ∈ colValues (convertDataTypes df) c,
        ∃ s, v = some s ∧ (isDatetimeFormatted s = true ∨ s = ""))
    ∨ columnTzMixed (colValues (convertDataTypes df) c) = true := by
  unfold convertDataTypes
  exact foldDatetime_hit c DATETIME_COLUMNS hc _

set_option maxRecDepth 8000 in
theorem datetime_columns_formatted_witness :
    (∀ v ∈ colValues (convertDataTypes
          ⟨["alarm_dttm"], [[some "2023-10-27T10:00:00.000"], [some "garbage"], [none]]⟩)
          "alarm_dttm",
        ∃ s, v = some s ∧ (isDatetimeFormatted s = true ∨ s = ""))
    ∨ columnTzMixed (colValues (convertDataTypes
          ⟨["alarm_dttm"], [[some "2023-10-27T10:00:00.000"], [some "garbage"], [none]]⟩)
          "alarm_dttm") = true :=
  datetime_columns_formatted
    ⟨["alarm_dttm"], [[some "2023-10-27T10:00:00.000"], [some "garbage"], [none]]⟩
    "alarm_dttm" (by decide)

/-- A frame whose `alarm_dttm` column mixes a tz-aware and a tz-naive
ISO string: `pd.to_datetime` raises on the whole column. -/
def dfMixedTz : DF :=
  ⟨["alarm_dttm"],
   [[some "2023-10-27T10:00:00.000+05:00"], [some "2023-10-27T10:00:00.000"]]⟩

set_option maxRecDepth 8000 in
/-- Counterexample to the unconditional reading of C10: on a datetime column
mixing tz-aware and tz-naive values the conversion fails column-wide and the
cells pass to the load interface unchanged — non-empty and not in the
`%Y-%m-%dT%H:%M:%S.%f` format. -/
theorem datetime_mixed_tz_unformatted :
    colValues (convertDataTypes dfMixedTz) "alarm_dttm"
        = [some "2023-10-27T10:00:00.000+05:00", some "2023-10-27T10:00:00.000"]
    ∧ isDatetimeFormatted "2023-10-27T10:00:00.000+05:00" = false
    ∧ "2023-10-27T10:00:00.000+05:00" ≠ "" := by
  exact ⟨by decide, by decide, by decide⟩

/-! ## Duplicate-resolution lemmas (claim C5) -/

/-- The rows of a frame carrying a given (non-missing) unique-key value. -/
def rowsWithKey (df : DF) (k : String) : List Row :=
  df.rows.filter (fun r => decide (keyCell df r = some k))

/-- The frame the quality gate hands onward (on the exception path the input
is returned, the pipeline having aborted). -/
def dqResolved (df : DF) : DF :=
  match performDataQualityChecks df with
  | .ok p => p.1
  | .error _ => df

theorem tsLeB_total (a b : Option String) : tsLeB a b = true ∨ tsLeB b a = true := by
  cases a with
  | none => cases b <;> simp [tsLeB]
  | some x =>
    cases b with
    | none => simp [tsLeB]
    | some y => exact strLe_total x y

theorem tsLeB_trans (a b c : Option String) :
    tsLeB a b = true → tsLeB b c = true → tsLeB a c = true := by
  cases a with
  | none =>
    cases b with
    | none => cases c <;> simp [tsLeB]
    | some y => simp [tsLeB]
  | some x =>
    cases b with
    | none =>
      cases c with
      | none => simp [tsLeB]
      | some z => simp [tsLeB]
    | some y =>
      cases c with
      | none => simp [tsLeB]
      | some z => exact strLe_trans x y z

theorem keepLast_subset (key : Row → Option String) :
    ∀ l r, r ∈ keepLast key l → r ∈ l := by
  intro l
  induction l with
  | nil => intro r h; simp [keepLast] at h
  | cons x xs ih =>
    intro r h
    unfold keepLast at h
    by_cases hany : xs.any (fun r2 => decide (key r2 = key x)) = true
    · rw [if_pos hany] at h
      exact List.mem_cons_of_mem _ (ih r h)
    · rw [if_neg hany] at h
      rcases List.mem_cons.mp h with rfl | h
      · exact List.mem_cons_self _ _
      · exact List.mem_cons_of_mem _ (ih r h)

theorem keepLast_filter_key (key : Row → Option String) (kv : Option String) :
    ∀ l, (keepLast key l).filter (fun r => decide (key r = kv)) =
      ((l.filter (fun r => decide (key r = kv))).getLast?).toList := by
  intro l
  induction l with
  | nil => rfl
  | cons r rs ih =>
    unfold keepLast
    by_cases hany : rs.any (fun r2 => decide (key r2 = key r)) = true
    · rw [if_pos hany, ih]
      by_cases hpr : key r = kv
      · rw [List.filter_cons_of_pos (by simp [hpr])]
        have hne : rs.filter (fun x => decide (key x = kv)) ≠ [] := by
          rcases List.any_eq_true.mp hany with ⟨r2, hr2, hk2⟩
          have hk2' : key r2 = kv := by rw [of_decide_eq_true hk2, hpr]
          intro hnil
          exact (List.filter_eq_nil_iff.mp hnil r2 hr2) (by simp [hk2'])
        rcases hcons : rs.filter (fun x => decide (key x = kv)) with _ | ⟨y, ys⟩
        · exact absurd hcons hne
        · rw [List.getLast?_cons_cons]
      · rw [List.filter_cons_of_neg (by simp [hpr])]
    · rw [if_neg hany]
      by_cases hpr : key r = kv
      · have hrs : ∀ x ∈ rs, key x ≠ kv := by
          intro x hx hk
          apply hany
          refine List.any_eq_true.mpr ⟨x, hx, ?_⟩
          simp [hk, hpr]
        have h1 : rs.filter (fun x => decide (key x = kv)) = [] :=
          List.filter_eq_nil_iff.mpr (by intro x hx; simpa using hrs x hx)
        have h2 : (keepLast key rs).filter (fun x => decide (key x = kv)) = [] :=
          List.filter_eq_nil_iff.mpr
            (by intro x hx; simpa using hrs x (keepLast_subset key rs x hx))
        rw [List.filter_cons_of_pos (by simp [hpr]),
          List.filter_cons_of_pos (by simp [hpr]), h1, h2]
        rfl
      · rw [List.filter_cons_of_neg (by simp [hpr]),
          List.filter_cons_of_neg (by simp [hpr])]
        exact ih

theorem keepFirstGo_filter_key (key : Row → Option String) (kv : Option String) :
    ∀ l seen, (keepFirstGo key seen l).filter (fun r => decide (key r = kv)) =
      if kv ∈ seen then [] else (l.filter (fun r => decide (key r = kv))).take 1 := by
  intro l
  induction l with
  | nil =>
    intro seen
    by_cases h : kv ∈ seen <;> simp [keepFirstGo, h]
  | cons r rs ih =>
    intro seen
    unfold keepFirstGo
    by_cases hseen : seen.contains (key r) = true
    · rw [if_pos hseen, ih]
      have hmem : key r ∈ seen := List.elem_iff.mp hseen
      by_cases hkv : kv ∈ seen
      · rw [if_pos hkv, if_pos hkv]
      · rw [if_neg hkv, if_neg hkv]
        have hpr : ¬ key r = kv := fun h => hkv (h ▸ hmem)
        rw [List.filter_cons_of_neg (by simp [hpr])]
    · rw [if_neg hseen]
      have hnm : key r ∉ seen := fun h => hseen (List.elem_iff.mpr h)
      by_cases hpr : key r = kv
      · subst hpr
        rw [List.filter_cons_of_pos (by simp), ih]
        rw [if_neg hnm, if_pos (List.mem_cons_self _ _)]
        rw [List.filter_cons_of_pos (by simp)]
        rfl
      · rw [List.filter_cons_of_neg (by simp [hpr]), ih]
        by_cases hkv : kv ∈ seen
        · rw [if_pos hkv, if_pos (List.mem_cons_of_mem _ hkv)]
        · rw [if_neg hkv, if_neg (by
            intro h
            rcases List.mem_cons.mp h with h | h
            · exact hpr h.symm
            · exact hkv h)]
          rw [List.filter_cons_of_neg (by simp [hpr])]

theorem perm_pair_eq {α : Type} {l : List α} {a b : α} (h : l.Perm [a, b]) :
    l = [a, b] ∨ l = [b, a] := by
  have hlen := h.length_eq
  rcases l with _ | ⟨x, _ | ⟨y, _ | ⟨z, t⟩⟩⟩
  · simp at hlen
  · simp at hlen
  · have hx : x ∈ [a, b] := h.mem_iff.mp (by simp)
    rcases (by simpa using hx : x = a ∨ x = b) with h1 | h1
    all_goals subst h1
    · have h2 : [y].Perm [b] := h.cons_inv
      have hy : y = b := by simpa using List.perm_singleton.mp h2
      left
      rw [hy]
    · have hswap : ([a, x] : List α).Perm [x, a] := List.Perm.swap x a []
      have h2 : [y].Perm [a] := (h.trans hswap).cons_inv
      have hy : y = a := by simpa using List.perm_singleton.mp h2
      right
      rw [hy]
  · simp at hlen

theorem contains_of_keyCell_some {df : DF} {r : Row} {K : String}
    (h : keyCell df r = some K) : df.cols.contains "incident_number" = true := by
  unfold keyCell cellAt at h
  cases hc : colIdx? df "incident_number" with
  | none =>
    rw [hc] at h
    exact Option.noConfusion h
  | some i =>
    exact List.elem_iff.mpr (List.getElem?_mem (firstIdx_getElem? hc))

theorem contains_of_tsCell_some {df : DF} {r : Row} {ts : String}
    (h : tsCell df r = some ts) : df.cols.contains INCREMENTAL_COLUMN = true := by
  unfold tsCell cellAt at h
  cases hc : colIdx? df INCREMENTAL_COLUMN with
  | none =>
    rw [hc] at h
    exact Option.noConfusion h
  | some i =>
    exact List.elem_iff.mpr (List.getElem?_mem (firstIdx_getElem? hc))

theorem DF_isEmpty_false_of {df : DF} (hr : df.rows ≠ []) (hc : df.cols ≠ []) :
    df.isEmpty = false := by
  unfold DF.isEmpty
  rw [Bool.or_eq_false_iff]
  exact ⟨List.isEmpty_eq_false.mpr hr, List.isEmpty_eq_false.mpr hc⟩

theorem hasDupKeys_of_two {df : DF} {K : String} {a b : Row}
    (h1 : rowsWithKey df K = [a, b]) : hasDupKeys df = true := by
  have hmema : a ∈ rowsWithKey df K := h1 ▸ List.mem_cons_self a [b]
  unfold rowsWithKey at hmema
  have hfa := List.mem_filter.mp hmema
  have hka : keyCell df a = some K := of_decide_eq_true hfa.2
  unfold hasDupKeys
  refine List.any_eq_true.mpr ⟨a, hfa.1, ?_⟩
  refine decide_eq_true ?_
  have hcount : df.rows.countP (fun r2 => decide (keyCell df r2 = keyCell df a))
      = df.rows.countP (fun r2 => decide (keyCell df r2 = some K)) :=
    List.countP_congr (by intro x _; simp [hka])
  rw [hcount, List.countP_eq_length_filter]
  have hfk : df.rows.filter (fun r2 => decide (keyCell df r2 = some K)) = [a, b] := h1
  rw [hfk]
  exact Nat.le_refl 2

theorem tsLeB_of_tsLtB {u v : Option String} (h : tsLtB u v = true) :
    tsLeB v u = false := by
  cases u with
  | none => simp [tsLtB] at h
  | some x =>
    cases v with
    | none => simp [tsLtB] at h
    | some y =>
      simp only [tsLtB] at h
      simp only [tsLeB, strLe]
      rw [h]
      rfl

theorem lastOfGetLast {α : Type} : ∀ (l : List α) (x : α), l.getLast? = some x → x ∈ l := by
  intro l
  induction l with
  | nil => intro x h; simp at h
  | cons a l ih =>
    intro x h
    cases l with
    | nil =>
      have hax : a = x := by simpa using h
      rw [hax]
      exact List.mem_cons_self _ _
    | cons b l2 =>
      rw [List.getLast?_cons_cons] at h
      exact List.mem_cons_of_mem a (ih x h)

theorem sorted_rel_getLast {α : Type} (R : α → α → Prop) :
    ∀ (l : List α) (x : α), List.Pairwise R l → l.getLast? = some x →
      ∀ y ∈ l, y = x ∨ R y x := by
  intro l
  induction l with
  | nil => intro x _ h; simp at h
  | cons a l ih =>
    intro x hp h y hy
    cases l with
    | nil =>
      have hax : a = x := by simpa using h
      have hya : y = a := by simpa using hy
      exact Or.inl (hya.trans hax)
    | cons b l2 =>
      rw [List.getLast?_cons_cons] at h
      rcases List.mem_cons.mp hy with rfl | hyl
      · right
        exact (List.pairwise_cons.mp hp).1 x (lastOfGetLast _ x h)
      · exact ih x (List.pairwise_cons.mp hp).2 h y hyl

theorem dqResolved_dup_ts {df : DF}
    (hEmpty : df.isEmpty = false)
    (hkey : df.cols.contains "incident_number" = true)
    (hdup : hasDupKeys df = true)
    (hts : df.cols.contains INCREMENTAL_COLUMN = true) :
    dqResolved df = ⟨df.cols, keepLast (keyCell df) (sortByTs df).rows⟩ := by
  unfold dqResolved performDataQualityChecks
  rw [if_neg (by rw [hEmpty]; simp), if_pos hkey]
  dsimp only
  rw [if_pos hdup, if_pos hts]

theorem dqResolved_dup_nots {df : DF}
    (hEmpty : df.isEmpty = false)
    (hkey : df.cols.contains "incident_number" = true)
    (hdup : hasDupKeys df = true)
    (htsf : df.cols.contains INCREMENTAL_COLUMN = false) :
    dqResolved df = ⟨df.cols, keepFirstGo (keyCell df) [] df.rows⟩ := by
  unfold dqResolved performDataQualityChecks
  rw [if_neg (by rw [hEmpty]; simp), if_pos hkey]
  dsimp only
  rw [if_pos hdup, if_neg (by rw [htsf]; simp)]

/-- C5: intra-batch duplicate-key resolution.  With the incremental column
present, among the rows sharing one key the row carrying the strictly
greatest timestamp survives — whatever its position in the frame and however
many rows share the key (sort ascending, keep last); with the incremental
column absent, every key keeps its first occurrence. -/
theorem duplicate_key_resolution (df : DF) (K : String) (m : Row) :
    (m ∈ rowsWithKey df K →
      df.cols.contains INCREMENTAL_COLUMN = true →
      hasDupKeys df = true →
      (∀ r ∈ rowsWithKey df K, r ≠ m → tsLtB (tsCell df r) (tsCell df m) = true) →
      rowsWithKey (dqResolved df) K = [m]) ∧
    (df.cols.contains "incident_number" = true →
      df.cols.contains INCREMENTAL_COLUMN = false → hasDupKeys df = true →
      df.isEmpty = false →
      ∀ K2, rowsWithKey (dqResolved df) K2 = (rowsWithKey df K2).take 1) := by
  constructor
  · intro hm hts hdup hmax
    have hm' : m ∈ df.rows.filter (fun r => decide (keyCell df r = some K)) := hm
    have hfm := List.mem_filter.mp hm'
    have hkm : keyCell df m = some K := of_decide_eq_true hfm.2
    have hkey := contains_of_keyCell_some hkm
    have hemp : df.isEmpty = false :=
      DF_isEmpty_false_of (List.ne_nil_of_mem hfm.1)
        (List.ne_nil_of_mem (List.elem_iff.mp hkey))
    rw [dqResolved_dup_ts hemp hkey hdup hts]
    show (keepLast (keyCell df) (sortByTs df).rows).filter
        (fun r => decide (keyCell df r = some K)) = [m]
    rw [keepLast_filter_key]
    have hperm : ((sortByTs df).rows.filter
        (fun r => decide (keyCell df r = some K))).Perm
        (df.rows.filter (fun r => decide (keyCell df r = some K))) :=
      (List.perm_insertionSort
        (fun r1 r2 : Row => tsLeB (tsCell df r1) (tsCell df r2) = true) df.rows).filter _
    have hmF : m ∈ (sortByTs df).rows.filter (fun r => decide (keyCell df r = some K)) :=
      hperm.mem_iff.mpr hm'
    haveI htot : IsTotal Row (fun r1 r2 => tsLeB (tsCell df r1) (tsCell df r2) = true) :=
      ⟨fun r1 r2 => tsLeB_total _ _⟩
    haveI htrans : IsTrans Row (fun r1 r2 => tsLeB (tsCell df r1) (tsCell df r2) = true) :=
      ⟨fun x y z hxy hyz => tsLeB_trans _ _ _ hxy hyz⟩
    have hsorted : List.Sorted (fun r1 r2 => tsLeB (tsCell df r1) (tsCell df r2) = true)
        ((sortByTs df).rows) :=
      List.sorted_insertionSort _ df.rows
    have hsf := hsorted.filter (fun r => decide (keyCell df r = some K))
    cases hlast : ((sortByTs df).rows.filter
        (fun r => decide (keyCell df r = some K))).getLast? with
    | none =>
      exact absurd (List.getLast?_eq_none_iff.mp hlast) (List.ne_nil_of_mem hmF)
    | some l =>
      have hlcls : l ∈ df.rows.filter (fun r => decide (keyCell df r = some K)) :=
        hperm.mem_iff.mp (lastOfGetLast _ l hlast)
      by_cases hlm : l = m
      · subst hlm
        rfl
      · exfalso
        have hlt := hmax l hlcls hlm
        rcases sorted_rel_getLast _ _ l hsf hlast m hmF with heq | hrel
        · exact hlm heq.symm
        · have hfalse := tsLeB_of_tsLtB hlt
          rw [hrel] at hfalse
          simp at hfalse
  · intro hkey htsf hdup hemp K2
    rw [dqResolved_dup_nots hemp hkey hdup htsf]
    show (keepFirstGo (keyCell df) [] df.rows).filter
        (fun r => decide (keyCell df r = some K2)) = (rowsWithKey df K2).take 1
    rw [keepFirstGo_filter_key]
    rw [if_neg (List.not_mem_nil _)]
    rfl

/-- Batch with key 1 twice (timestamps Jan 2 and Jan 5, older first) plus
key 2 once. -/
def dfDupTs : DF :=
  ⟨["incident_number", "response_timestamp", "city"],
   [[some "1", some "2024-01-02T00:00:00.000", some "A"],
    [some "2", some "2024-01-01T00:00:00.000", some "B"],
    [some "1", some "2024-01-05T00:00:00.000", some "C"]]⟩

/-- Batch with key 1 twice and the NEWER row first in frame order: a
keep-last-occurrence without the sort would wrongly keep the older row. -/
def dfDupTsNewerFirst : DF :=
  ⟨["incident_number", "response_timestamp", "city"],
   [[some "1", some "2024-01-05T00:00:00.000", some "A"],
    [some "2", some "2024-01-01T00:00:00.000", some "B"],
    [some "1", some "2024-01-02T00:00:00.000", some "C"]]⟩

/-- Batch with key 1 twice and no incremental column. -/
def dfDupNoTs : DF :=
  ⟨["incident_number", "city"],
   [[some "1", some "A"], [some "2", some "B"], [some "1", some "C"]]⟩

theorem duplicate_key_resolution_witness :
    rowsWithKey (dqResolved dfDupTsNewerFirst) "1"
        = [[some "1", some "2024-01-05T00:00:00.000", some "A"]] ∧
    rowsWithKey (dqResolved dfDupTs) "1"
        = [[some "1", some "2024-01-05T00:00:00.000", some "C"]] ∧
    rowsWithKey (dqResolved dfDupNoTs) "1" = [[some "1", some "A"]] :=
  ⟨(duplicate_key_resolution dfDupTsNewerFirst "1"
      [some "1", some "2024-01-05T00:00:00.000", some "A"]).1
      (by decide) (by decide) (by decide) (by decide),
   (duplicate_key_resolution dfDupTs "1"
      [some "1", some "2024-01-05T00:00:00.000", some "C"]).1
      (by decide) (by decide) (by decide) (by decide),
   ((duplicate_key_resolution dfDupNoTs "1" []).2
      (by decide) (by decide) (by decide) (by decide) "1").trans (by decide)⟩

/-! ## Transform preservation lemmas (claims C3 and C2) -/

theorem renameDupsGo_length : ∀ (l : List String) (seen : List (String × Nat)),
    (renameDupsGo seen l).length = l.length := by
  intro l
  induction l with
  | nil => intro seen; rfl
  | cons n rest ih =>
    intro seen
    unfold renameDupsGo
    cases seen.find? (fun p => decide (p.1 = n)) with
    | none => simp [ih]
    | some p => simp [ih]

theorem cleanColumnNames_rows (df : DF) : (cleanColumnNames df).rows = df.rows := rfl

theorem cleanColumnNames_cols_length (df : DF) :
    (cleanColumnNames df).cols.length = df.cols.length := by
  unfold cleanColumnNames
  rw [renameDupsGo_length, List.length_map]

theorem mapCol_rows_length (df : DF) (c : String) (f : Option String → Option String) :
    (mapCol df c f).rows.length = df.rows.length := by
  unfold mapCol
  cases colIdx? df c with
  | none => rfl
  | some i => simp

theorem foldDtypes_cols : ∀ (L : List (String × Dtype)) (d : DF),
    (L.foldl (fun acc p => mapCol acc p.1 (dtypeConv p.2)) d).cols = d.cols := by
  intro L
  induction L with
  | nil => intro d; rfl
  | cons p L ih =>
    intro d
    simp only [List.foldl_cons]
    rw [ih, mapCol_cols]

theorem foldDt_cols : ∀ (L : List String) (d : DF),
    (L.foldl (fun acc c =>
      if columnTzMixed (colValues acc c) then acc
      else mapCol acc c toDatetimeCell) d).cols = d.cols := by
  intro L
  induction L with
  | nil => intro d; rfl
  | cons c L ih =>
    intro d
    simp only [List.foldl_cons]
    rw [ih]
    by_cases h : columnTzMixed (colValues d c) = true
    · rw [if_pos h]
    · rw [if_neg h, mapCol_cols]

theorem foldDtypes_rows_length : ∀ (L : List (String × Dtype)) (d : DF),
    (L.foldl (fun acc p => mapCol acc p.1 (dtypeConv p.2)) d).rows.length = d.rows.length := by
  intro L
  induction L with
  | nil => intro d; rfl
  | cons p L ih =>
    intro d
    simp only [List.foldl_cons]
    rw [ih, mapCol_rows_length]

theorem foldDt_rows_length : ∀ (L : List String) (d : DF),
    (L.foldl (fun acc c =>
      if columnTzMixed (colValues acc c) then acc
      else mapCol acc c toDatetimeCell) d).rows.length = d.rows.length := by
  intro L
  induction L with
  | nil => intro d; rfl
  | cons c L ih =>
    intro d
    simp only [List.foldl_cons]
    rw [ih]
    by_cases h : columnTzMixed (colValues d c) = true
    · rw [if_pos h]
    · rw [if_neg h, mapCol_rows_length]

theorem convertDataTypes_cols (df : DF) : (convertDataTypes df).cols = df.cols := by
  unfold convertDataTypes
  rw [foldDt_cols, foldDtypes_cols]

theorem convertDataTypes_rows_length (df : DF) :
    (convertDataTypes df).rows.length = df.rows.length := by
  unfold convertDataTypes
  rw [foldDt_rows_length, foldDtypes_rows_length]

theorem keepLast_ne_nil (key : Row → Option String) :
    ∀ l, l ≠ [] → keepLast key l ≠ [] := by
  intro l
  induction l with
  | nil => intro h; exact absurd rfl h
  | cons r rs ih =>
    intro _
    unfold keepLast
    by_cases hany : rs.any (fun r2 => decide (key r2 = key r)) = true
    · rw [if_pos hany]
      rcases List.any_eq_true.mp hany with ⟨r2, hr2, _⟩
      exact ih (List.ne_nil_of_mem hr2)
    · rw [if_neg hany]
      exact List.cons_ne_nil _ _

theorem keepFirstGo_nil_ne_nil (key : Row → Option String) :
    ∀ l, l ≠ [] → keepFirstGo key [] l ≠ [] := by
  intro l hl
  cases l with
  | nil => exact absurd rfl hl
  | cons r rs =>
    unfold keepFirstGo
    rw [if_neg (by simp)]
    exact List.cons_ne_nil _ _

theorem sortByTs_rows_length (df : DF) : (sortByTs df).rows.length = df.rows.length :=
  (List.perm_insertionSort _ df.rows).length_eq

/-- The quality gate on a non-empty frame with the key column: it succeeds,
keeps the column set and at least one row, and its FAIL verdict is exactly
"some key cell is missing". -/
theorem pdqc_ok_spec {df : DF} (hemp : df.isEmpty = false)
    (hkey : df.cols.contains "incident_number" = true) :
    ∃ res v, performDataQualityChecks df = .ok (res, v) ∧ res.cols = df.cols ∧
      res.rows ≠ [] ∧ v.missingPk = df.rows.any (fun r => (keyCell df r).isNone) := by
  have hrows : df.rows ≠ [] :=
    List.isEmpty_eq_false.mp (Bool.or_eq_false_iff.mp hemp).1
  unfold performDataQualityChecks
  rw [if_neg (by rw [hemp]; simp), if_pos hkey]
  dsimp only
  by_cases hdup : hasDupKeys df = true
  · rw [if_pos hdup]
    by_cases hts : df.cols.contains INCREMENTAL_COLUMN = true
    · rw [if_pos hts]
      refine ⟨_, _, rfl, rfl, ?_, rfl⟩
      refine keepLast_ne_nil _ _ ?_
      intro hnil
      have := sortByTs_rows_length df
      rw [hnil] at this
      exact hrows (List.length_eq_zero.mp this.symm)
    · rw [if_neg hts]
      exact ⟨_, _, rfl, rfl, keepFirstGo_nil_ne_nil _ _ hrows, rfl⟩
  · rw [if_neg hdup]
    exact ⟨_, _, rfl, rfl, hrows, rfl⟩

/-- Source returning one batch in which the second record lacks the
`incident_number` field (a missing primary key after framing). -/
def apiMissingKey : Option String → Nat → List Record := fun _ _ =>
  [[("incident_number", "1"), ("response_timestamp", "2024-01-02T00:00:00.000")],
   [("response_timestamp", "2024-01-03T00:00:00.000")]]

set_option maxRecDepth 40000 in
/-- C3 counterexample: a non-empty batch whose `incident_number` column has a
missing value is tagged FAIL by the quality gate, yet the pipeline does not
halt: `load_data_to_staging` is invoked (the run then dies only because the
database rejects the NULL key, exiting 1 after the loader ran). -/
theorem missing_key_still_loads :
    (runEtl none apiMissingKey 2000 none).verdictFail = true ∧
    (runEtl none apiMissingKey 2000 none).loadCalled = true ∧
    (runEtl none apiMissingKey 2000 none).exitCode = 1 :=
  ⟨rfl, rfl, rfl⟩

/-- C3 amended: after a successful non-empty fetch, if the transformed frame
has the `incident_number` column then the loader is always invoked — whether
or not the FAIL verdict was raised — and the FAIL verdict holds exactly when
some key cell is missing; the pipeline halts before the loader only when the
`incident_number` column is absent altogether (the gate raises and the run
exits 1 without calling the loader). -/
theorem dq_gate_routing (lastRun : Option String)
    (api : Option String → Nat → List Record) (limit : Nat) (db : DB)
    (rs : List Record)
    (hf : (fetchFireData lastRun api limit).result = some rs)
    (hne : (recordsToDF rs).isEmpty = false) :
    ((convertDataTypes (cleanColumnNames (recordsToDF rs))).cols.contains
        "incident_number" = true →
      (runEtl lastRun api limit db).loadCalled = true ∧
      (runEtl lastRun api limit db).verdictFail
        = (convertDataTypes (cleanColumnNames (recordsToDF rs))).rows.any
            (fun r => (keyCell (convertDataTypes (cleanColumnNames (recordsToDF rs))) r).isNone)) ∧
    ((convertDataTypes (cleanColumnNames (recordsToDF rs))).cols.contains
        "incident_number" = false →
      (runEtl lastRun api limit db).exitCode = 1 ∧
      (runEtl lastRun api limit db).loadCalled = false) := by
  have hrun : runEtl lastRun api limit db
      = runPhase2 lastRun db (fetchFireData lastRun api limit).requests (recordsToDF rs) := by
    unfold runEtl
    dsimp only
    rw [hf]
  have hrawrows : (recordsToDF rs).rows ≠ [] :=
    List.isEmpty_eq_false.mp (Bool.or_eq_false_iff.mp hne).1
  have hrawcols : (recordsToDF rs).cols ≠ [] :=
    List.isEmpty_eq_false.mp (Bool.or_eq_false_iff.mp hne).2
  have htrows : (convertDataTypes (cleanColumnNames (recordsToDF rs))).rows ≠ [] := by
    intro hnil
    have hlen := convertDataTypes_rows_length (cleanColumnNames (recordsToDF rs))
    rw [hnil] at hlen
    rw [cleanColumnNames_rows] at hlen
    exact hrawrows (List.length_eq_zero.mp hlen.symm)
  have htcols : (convertDataTypes (cleanColumnNames (recordsToDF rs))).cols ≠ [] := by
    intro hnil
    have hlen := convertDataTypes_cols (cleanColumnNames (recordsToDF rs))
    rw [hnil] at hlen
    have hlen2 := cleanColumnNames_cols_length (recordsToDF rs)
    rw [← hlen] at hlen2
    simp only [List.length_nil] at hlen2
    exact hrawcols (List.length_eq_zero.mp hlen2.symm)
  have htemp : (convertDataTypes (cleanColumnNames (recordsToDF rs))).isEmpty = false :=
    DF_isEmpty_false_of htrows htcols
  rw [hrun]
  unfold runPhase2
  rw [if_neg (by rw [hne]; simp)]
  dsimp only
  constructor
  · intro hkey
    obtain ⟨res, v, hok, hcols, hrows, hmiss⟩ := pdqc_ok_spec htemp hkey
    have htr : transformData (recordsToDF rs) = .ok (res, v) := by
      unfold transformData
      rw [if_neg (by rw [hne]; simp)]
      exact hok
    rw [htr]
    dsimp only
    have hresemp : res.isEmpty = false := by
      refine DF_isEmpty_false_of hrows ?_
      rw [hcols]
      exact htcols
    rw [if_neg (by rw [hresemp]; simp)]
    rcases hload : loadDataToStaging db res with ⟨db', r⟩
    cases r with
    | error e => exact ⟨rfl, hmiss⟩
    | ok u => exact ⟨rfl, hmiss⟩
  · intro hkeyf
    have htr : transformData (recordsToDF rs)
        = .error "Missing critical column incident_number" := by
      unfold transformData
      rw [if_neg (by rw [hne]; simp)]
      unfold performDataQualityChecks
      rw [if_neg (by rw [htemp]; simp), if_neg (by rw [hkeyf]; simp)]
    rw [htr]
    exact ⟨rfl, rfl⟩

/-- Source returning one complete record (no missing key). -/
def apiGoodKey : Option String → Nat → List Record := fun _ _ =>
  [[("incident_number", "7"), ("response_timestamp", "2024-02-02T00:00:00.000")]]

set_option maxRecDepth 40000 in
theorem dq_gate_routing_witness :
    (runEtl none apiGoodKey 2000 none).loadCalled = true ∧
    (runEtl none apiGoodKey 2000 none).verdictFail = false :=
  ⟨((dq_gate_routing none apiGoodKey 2000 none
      [[("incident_number", "7"), ("response_timestamp", "2024-02-02T00:00:00.000")]]
      rfl (by decide)).1 (by decide)).1,
   (((dq_gate_routing none apiGoodKey 2000 none
      [[("incident_number", "7"), ("response_timestamp", "2024-02-02T00:00:00.000")]]
      rfl (by decide)).1 (by decide)).2).trans (by decide)⟩

/-! ## Watermark lemmas (claim C2) -/

theorem maxDt_mem (d : DateTime) (ds : List DateTime) : maxDt d ds ∈ d :: ds := by
  unfold maxDt
  induction ds generalizing d with
  | nil => simp
  | cons x xs ih =>
    simp only [List.foldl_cons]
    have hmem := ih (if dtKey d < dtKey x then x else d)
    rcases List.mem_cons.mp hmem with h | h
    · rw [h]
      by_cases hk : dtKey d < dtKey x
      · rw [if_pos hk]
        exact List.mem_cons_of_mem _ (List.mem_cons_self _ _)
      · rw [if_neg hk]
        exact List.mem_cons_self _ _
    · exact List.mem_cons_of_mem _ (List.mem_cons_of_mem _ h)

theorem computeLatest_some_mem {raw : DF} {s : String}
    (h : (computeLatest raw).1 = some s) :
    ∃ d ∈ (computeLatest raw).2, s = fmtMilli d := by
  unfold computeLatest at h ⊢
  by_cases hc : raw.cols.contains INCREMENTAL_COLUMN = true
  · rw [if_pos hc] at h ⊢
    cases hp : (colValues raw INCREMENTAL_COLUMN).filterMap (fun v => v.bind parseTimestamp) with
    | nil =>
      rw [hp] at h
      dsimp only at h
      exact Option.noConfusion h
    | cons d ds =>
      rw [hp] at h
      dsimp only at h ⊢
      refine ⟨maxDt d ds, maxDt_mem d ds, ?_⟩
      injection h with h'
      exact h'.symm
  · rw [if_neg hc] at h
    exact Option.noConfusion h

theorem convertClean_nonempty {raw : DF} (hraw : raw.isEmpty = false) :
    (convertDataTypes (cleanColumnNames raw)).rows ≠ [] ∧
    (convertDataTypes (cleanColumnNames raw)).cols ≠ [] ∧
    (convertDataTypes (cleanColumnNames raw)).isEmpty = false := by
  have hrawrows : raw.rows ≠ [] :=
    List.isEmpty_eq_false.mp (Bool.or_eq_false_iff.mp hraw).1
  have hrawcols : raw.cols ≠ [] :=
    List.isEmpty_eq_false.mp (Bool.or_eq_false_iff.mp hraw).2
  have htrows : (convertDataTypes (cleanColumnNames raw)).rows ≠ [] := by
    intro hnil
    have hlen := convertDataTypes_rows_length (cleanColumnNames raw)
    rw [hnil] at hlen
    rw [cleanColumnNames_rows] at hlen
    exact hrawrows (List.length_eq_zero.mp hlen.symm)
  have htcols : (convertDataTypes (cleanColumnNames raw)).cols ≠ [] := by
    intro hnil
    have hlen := convertDataTypes_cols (cleanColumnNames raw)
    rw [hnil] at hlen
    have hlen2 := cleanColumnNames_cols_length raw
    rw [← hlen] at hlen2
    simp only [List.length_nil] at hlen2
    exact hrawcols (List.length_eq_zero.mp hlen2.symm)
  exact ⟨htrows, htcols, DF_isEmpty_false_of htrows htcols⟩

set_option maxRecDepth 40000 in
theorem transform_nonempty {raw tdf : DF} {v : Verdicts}
    (hraw : raw.isEmpty = false)
    (h : transformData raw = .ok (tdf, v)) : tdf.isEmpty = false := by
  unfold transformData at h
  rw [if_neg (by rw [hraw]; simp)] at h
  obtain ⟨htrows, htcols, htemp⟩ := convertClean_nonempty hraw
  by_cases hkey : (convertDataTypes (cleanColumnNames raw)).cols.contains
      "incident_number" = true
  · obtain ⟨res, v', hok, hcols, hrows, _⟩ := pdqc_ok_spec htemp hkey
    rw [hok] at h
    simp only [Except.ok.injEq, Prod.mk.injEq] at h
    rw [← h.1]
    refine DF_isEmpty_false_of hrows ?_
    rw [hcols]
    exact htcols
  · have herr : performDataQualityChecks (convertDataTypes (cleanColumnNames raw))
        = .error "Missing critical column incident_number" := by
      unfold performDataQualityChecks
      rw [if_neg (by rw [htemp]; simp), if_neg hkey]
    rw [herr] at h
    exact Except.noConfusion h

/-- Source that returns a record older than the watermark (the code never
verifies that the server applied the `$where` filter). -/
def apiStale : Option String → Nat → List Record := fun _ _ =>
  [[("incident_number", "1"), ("response_timestamp", "2023-06-01T00:00:00.000")]]

set_option maxRecDepth 40000 in
/-- C2 counterexample: with watermark `2024-01-01...` and a source returning
a single record stamped `2023-06-01...`, the run succeeds and overwrites the
watermark with the strictly smaller value — the guard in `run_etl` is `!=`,
not strictly-greater, so the watermark is not monotonically
non-decreasing. -/
theorem watermark_moves_backward :
    (runEtl (some "2024-01-01T00:00:00.000") apiStale 2000 none).saves
      = ["2023-06-01T00:00:00.000"] ∧
    (runEtl (some "2024-01-01T00:00:00.000") apiStale 2000 none).exitCode = 0 ∧
    strLt "2023-06-01T00:00:00.000" "2024-01-01T00:00:00.000" = true :=
  ⟨rfl, rfl, by decide⟩

set_option maxRecDepth 40000 in
/-- C2 amended: in every run the watermark is persisted at most once; a
persisted value implies the loader ran and the run succeeded; the value
persisted is exactly the formatted maximum fetched timestamp and differs
(by `!=`, the code's actual guard) from the initial watermark; and it is
strictly greater than the initial watermark only under the extra assumption
that every fetched record's parsed timestamp formats strictly above it —
the assumption the server-side filter is meant to provide but the code
never checks. -/
theorem watermark_update_guard (lastRun : Option String)
    (api : Option String → Nat → List Record) (limit : Nat) (db : DB) :
    ((runEtl lastRun api limit db).saves.length ≤ 1) ∧
    ((runEtl lastRun api limit db).saves ≠ [] →
      (runEtl lastRun api limit db).loadCalled = true ∧
      (runEtl lastRun api limit db).exitCode = 0) ∧
    (∀ s, s ∈ (runEtl lastRun api limit db).saves →
      (runEtl lastRun api limit db).latest = some s ∧ lastRun ≠ some s) ∧
    (∀ w s, lastRun = some w →
      (∀ d ∈ (runEtl lastRun api limit db).parsedTs, strLt w (fmtMilli d) = true) →
      s ∈ (runEtl lastRun api limit db).saves → strLt w s = true) := by
  unfold runEtl
  dsimp only
  cases hf : (fetchFireData lastRun api limit).result with
  | none =>
    dsimp only
    exact ⟨by simp, by simp, by simp, by simp⟩
  | some recs =>
    dsimp only
    unfold runPhase2
    by_cases hraw : (recordsToDF recs).isEmpty = true
    · rw [if_pos hraw]
      exact ⟨by simp, by simp, by simp, by simp⟩
    · rw [if_neg hraw]
      dsimp only
      cases htr : transformData (recordsToDF recs) with
      | error e =>
        dsimp only
        exact ⟨by simp, by simp, by simp, by simp⟩
      | ok p =>
        rcases p with ⟨tdf, v⟩
        dsimp only
        have htne : tdf.isEmpty = false :=
          transform_nonempty (Bool.not_eq_true _ ▸ hraw) htr
        rw [if_neg (by rw [htne]; simp)]
        rcases hload : loadDataToStaging db tdf with ⟨db', r⟩
        cases r with
        | error e =>
          dsimp only
          exact ⟨by simp, by simp, by simp, by simp⟩
        | ok u =>
          dsimp only
          refine ⟨?_, fun _ => ⟨rfl, rfl⟩, ?_, ?_⟩
          · unfold savesOf
            cases (computeLatest (recordsToDF recs)).1 with
            | none => simp
            | some s' =>
              dsimp only
              by_cases heq : lastRun = some s'
              · rw [if_pos heq]
                simp
              · rw [if_neg heq]
                simp
          · intro s hs
            unfold savesOf at hs
            cases hcl : (computeLatest (recordsToDF recs)).1 with
            | none =>
              rw [hcl] at hs
              simp at hs
            | some s' =>
              rw [hcl] at hs
              dsimp only at hs
              by_cases heq : lastRun = some s'
              · rw [if_pos heq] at hs
                simp at hs
              · rw [if_neg heq] at hs
                have hss : s = s' := by simpa using hs
                subst hss
                exact ⟨rfl, heq⟩
          · intro w s hw hall hs
            unfold savesOf at hs
            cases hcl : (computeLatest (recordsToDF recs)).1 with
            | none =>
              rw [hcl] at hs
              simp at hs
            | some s' =>
              rw [hcl] at hs
              dsimp only at hs
              by_cases heq : lastRun = some s'
              · rw [if_pos heq] at hs
                simp at hs
              · rw [if_neg heq] at hs
                have hss : s = s' := by simpa using hs
                subst hss
                obtain ⟨d, hd, rfl⟩ := computeLatest_some_mem hcl
                exact hall d hd

/-- Source honouring the filter: its one record is strictly newer than the
watermark. -/
def apiFresh : Option String → Nat → List Record := fun _ _ =>
  [[("incident_number", "9"), ("response_timestamp", "2024-05-01T00:00:00.000")]]

set_option maxRecDepth 40000 in
theorem watermark_update_guard_witness :
    (runEtl (some "2024-01-01T00:00:00.000") apiFresh 2000 none).saves.length ≤ 1 ∧
    strLt "2024-01-01T00:00:00.000" "2024-05-01T00:00:00.000" = true :=
  ⟨(watermark_update_guard (some "2024-01-01T00:00:00.000") apiFresh 2000 none).1,
   (watermark_update_guard (some "2024-01-01T00:00:00.000") apiFresh 2000 none).2.2.2
     "2024-01-01T00:00:00.000" "2024-05-01T00:00:00.000" rfl (by decide) (by decide)⟩
